import Mathlib

/-!
Verification of the `api-operacao` import service against its specification.

The Python sources are shallowly embedded: a Python `str` is a `List Char`
(`Str`), Python dicts are insertion-ordered association lists, the MySQL
store is a record of tables, and the demo/mock connection is `Option`:
`none` plays the role of the mock connection whose `fetchone` always
returns `None`.  Machine-level caveats of the embedding are noted on the
individual definitions.
-/

/-- Python `str` is modelled as a list of characters. -/
abbrev Str := List Char

/-- Conversion from a Lean string literal to the model type. -/
def S (s : String) : Str := s.data

/-- Python whitespace (the set accepted by `str.strip`, `str.split` and the
regex class `\s` on `str` inputs): ASCII whitespace and the control/Unicode
whitespace code points. -/
def pyIsSpace (c : Char) : Bool :=
  decide ((9 ≤ c.toNat ∧ c.toNat ≤ 13) ∨ (28 ≤ c.toNat ∧ c.toNat ≤ 32) ∨
    c.toNat = 133 ∨ c.toNat = 160 ∨ c.toNat = 5760 ∨
    (8192 ≤ c.toNat ∧ c.toNat ≤ 8202) ∨ c.toNat = 8232 ∨ c.toNat = 8233 ∨
    c.toNat = 8239 ∨ c.toNat = 8287 ∨ c.toNat = 12288)

/-- Drop leading Python whitespace (`str.lstrip`). -/
def stripLeft (s : Str) : Str := s.dropWhile pyIsSpace

/-- Drop trailing Python whitespace (`str.rstrip`). -/
def stripRight (s : Str) : Str := (s.reverse.dropWhile pyIsSpace).reverse

/-- Python `str.strip`. -/
def pyStrip (s : Str) : Str := stripLeft (stripRight s)

/-- Python `str.upper`, per character.  Covers ASCII and the Latin-1
supplement, the repertoire this service manipulates (the multi-character
expansion of `ß` is not modelled; no claim depends on it). -/
def upperChar (c : Char) : Char :=
  if 97 ≤ c.toNat ∧ c.toNat ≤ 122 then Char.ofNat (c.toNat - 32)
  else if (224 ≤ c.toNat ∧ c.toNat ≤ 254 ∧ c.toNat ≠ 247) then Char.ofNat (c.toNat - 32)
  else if c.toNat = 255 then Char.ofNat 376
  else c

/-- Python `str.lower`, per character, for ASCII and the Latin-1 supplement. -/
def pyLower (c : Char) : Char :=
  if 65 ≤ c.toNat ∧ c.toNat ≤ 90 then Char.ofNat (c.toNat + 32)
  else if (192 ≤ c.toNat ∧ c.toNat ≤ 222 ∧ c.toNat ≠ 215) then Char.ofNat (c.toNat + 32)
  else if c.toNat = 376 then Char.ofNat 255
  else c

/-- Whitespace-splitting worker for Python `str.split()` (no separator
argument): accumulates the current word in reverse. -/
def splitWsAux : Str → Str → List Str
  | [], acc => if acc = [] then [] else [acc.reverse]
  | c :: rest, acc =>
    if pyIsSpace c then
      if acc = [] then splitWsAux rest [] else acc.reverse :: splitWsAux rest []
    else splitWsAux rest (c :: acc)

/-- Python `str.split()` with no argument: split on whitespace runs,
dropping empty fields. -/
def pySplitWs (s : Str) : List Str := splitWsAux s []

/-- Python `" ".join(words)`. -/
def joinSpace : List Str → Str
  | [] => []
  | [w] => w
  | w :: ws => w ++ ' ' :: joinSpace ws

/-- Python `" ".join(s.split())`: collapse whitespace runs to single
spaces and trim. -/
def collapseWs (s : Str) : Str := joinSpace (pySplitWs s)

/-- Python `s.split(sep)` for a one-character separator `sep` (keeps empty
fields, always returns at least one field). -/
def splitOnCharL (d : Char) : Str → List Str
  | [] => [[]]
  | c :: rest =>
    let r := splitOnCharL d rest
    if c = d then [] :: r
    else (c :: r.headD []) :: r.tail

/-- First-match lookup in an insertion-ordered association list
(Python `dict.__getitem__` / `in`). -/
def lookupA {κ α : Type} [DecidableEq κ] (l : List (κ × α)) (k : κ) : Option α :=
  (l.find? (fun p => decide (p.1 = k))).map (·.2)

/-- Python `dict.get(k, dflt)`. -/
def getDA {κ α : Type} [DecidableEq κ] (l : List (κ × α)) (k : κ) (dflt : α) : α :=
  (lookupA l k).getD dflt

/-- Python `d[k] = v`: replace the value in place if the key exists,
otherwise append (preserving dict insertion order). -/
def insertA {κ α : Type} [DecidableEq κ] (l : List (κ × α)) (k : κ) (v : α) :
    List (κ × α) :=
  if (lookupA l k).isSome then
    l.map (fun p => if p.1 = k then (k, v) else p)
  else l ++ [(k, v)]

/-- Python `list.index` as an option (`str` elements, first match). -/
def indexOfA {α : Type} [DecidableEq α] (l : List α) (x : α) : Option Nat :=
  l.findIdx? (fun y => decide (y = x))

/-- Decimal digit to its ASCII character. -/
def digitChar10 (d : Nat) : Char := Char.ofNat (48 + d % 10)

/-- Fuel-driven decimal rendering worker (structural, so that the kernel
can evaluate it). -/
def toDecAux : Nat → Nat → Str
  | 0, _ => []
  | fuel + 1, n => if n = 0 then [] else toDecAux fuel (n / 10) ++ [digitChar10 (n % 10)]

/-- Python `str(n)` for a non-negative integer. -/
def natToChars (n : Nat) : Str := if n = 0 then ['0'] else toDecAux n n

/-- Decimal value of a digit string (left inverse of `natToChars`). -/
def decValue (s : Str) : Nat := s.foldl (fun a c => a * 10 + (c.toNat - 48)) 0

/-! ## `app/utils/text_utils.py` -/

/-- Character class of the regex `[A-Za-z0-9\sÀ-ÿ]` used by
`has_special_characters` (note it admits the whole Latin-1 block
U+00C0–U+00FF, including `×` and `÷`). -/
def allowedCharHSC (c : Char) : Bool :=
  decide ((65 ≤ c.toNat ∧ c.toNat ≤ 90) ∨ (97 ≤ c.toNat ∧ c.toNat ≤ 122) ∨
    (48 ≤ c.toNat ∧ c.toNat ≤ 57) ∨ pyIsSpace c = true ∨
    (192 ≤ c.toNat ∧ c.toNat ≤ 255))

/-- `has_special_characters(text)`: `False` on the empty string, otherwise
true iff some character falls outside `[A-Za-z0-9\sÀ-ÿ]`.  (`re.match` of
the anchored pattern `^[...]+$`; the `$`-before-final-newline quirk is
immaterial because `\n` is itself in the class.) -/
def has_special_characters (t : Str) : Bool :=
  if t = [] then false else !(t.all allowedCharHSC)

/-- The decomposition-range table for the composition of Unicode NFD and
the removal of combining marks (category `Mn`), for the Latin-1 letters
the service's uppercase pipeline produces: each entry maps a code-point
range to the base letter's code point. -/
def nfdPairs : List ((Nat × Nat) × Nat) :=
  [((192, 197), 65), ((199, 199), 67), ((200, 203), 69), ((204, 207), 73),
   ((209, 209), 78), ((210, 214), 79), ((217, 220), 85), ((221, 221), 89),
   ((224, 229), 97), ((231, 231), 99), ((232, 235), 101), ((236, 239), 105),
   ((241, 241), 110), ((242, 246), 111), ((249, 252), 117), ((253, 253), 121),
   ((255, 255), 121), ((376, 376), 89)]

/-- The base letter a decomposable Latin-1 letter reduces to, if any. -/
def nfdBaseCode (n : Nat) : Option Nat :=
  (nfdPairs.find? (fun p => decide (p.1.1 ≤ n ∧ n ≤ p.1.2))).map (·.2)

/-- Composition of Unicode NFD decomposition and the removal of combining
marks (category `Mn`), per character: a combining mark (U+0300-U+036F) maps
to nothing, a decomposable Latin-1 letter maps to its base letter via the
table, any other character is left alone. -/
def nfdStripMn (c : Char) : Str :=
  if 768 ≤ c.toNat ∧ c.toNat ≤ 879 then []
  else
    match nfdBaseCode c.toNat with
    | some b => [Char.ofNat b]
    | none => [c]

/-- Character class kept by the final `re.sub(r'[^A-Z0-9\s]', '', text)` of
`normalize_text`. -/
def keepChar (c : Char) : Bool :=
  decide ((65 ≤ c.toNat ∧ c.toNat ≤ 90) ∨ (48 ≤ c.toNat ∧ c.toNat ≤ 57) ∨
    pyIsSpace c = true)

/-- `normalize_text(text)`: trim, uppercase, collapse whitespace runs,
strip diacritics (NFD then drop `Mn`), delete characters outside
`[A-Z0-9\s]`, trim again. -/
def normalize_text (t : Str) : Str :=
  let t1 := pyStrip t
  let t2 := t1.map upperChar
  let t3 := collapseWs t2
  let t4 := (t3.map nfdStripMn).flatten
  let t5 := t4.filter keepChar
  pyStrip t5

/-- Character class `[a-zA-Z0-9._-]` (local part of the e-mail regex). -/
def emailLocalChar (c : Char) : Bool :=
  decide ((65 ≤ c.toNat ∧ c.toNat ≤ 90) ∨ (97 ≤ c.toNat ∧ c.toNat ≤ 122) ∨
    (48 ≤ c.toNat ∧ c.toNat ≤ 57) ∨ c.toNat = 46 ∨ c.toNat = 95 ∨ c.toNat = 45)

/-- Character class `[a-zA-Z0-9.-]` (domain part of the e-mail regex). -/
def emailDomainChar (c : Char) : Bool :=
  decide ((65 ≤ c.toNat ∧ c.toNat ≤ 90) ∨ (97 ≤ c.toNat ∧ c.toNat ≤ 122) ∨
    (48 ≤ c.toNat ∧ c.toNat ≤ 57) ∨ c.toNat = 46 ∨ c.toNat = 45)

/-- ASCII letter. -/
def asciiLetter (c : Char) : Bool :=
  decide ((65 ≤ c.toNat ∧ c.toNat ≤ 90) ∨ (97 ≤ c.toNat ∧ c.toNat ≤ 122))

/-- Matcher for `^[a-zA-Z0-9._-]+@[a-zA-Z0-9.-]+\.[a-zA-Z]{2,6}$` on an
already-stripped string: the part before the first `@` is the non-empty
local part, and after the `@` the suffix following the last `.` must be
2–6 ASCII letters with a non-empty domain before it.  (No character class
of the pattern contains `@`, and the top-level-domain class contains no
`.`, so first-`@`/last-`.` splitting is exactly the regex's behaviour.) -/
def emailOk (s : Str) : Bool :=
  match splitOnCharL '@' s with
  | [localPart, rest] =>
    let revRest := rest.reverse
    let tldRev := revRest.takeWhile (fun c => decide (c ≠ '.'))
    localPart ≠ [] && localPart.all emailLocalChar &&
    decide (tldRev.length < revRest.length) &&
    (revRest.drop (tldRev.length + 1)).reverse ≠ [] &&
    ((revRest.drop (tldRev.length + 1)).reverse).all emailDomainChar &&
    tldRev.all asciiLetter && decide (2 ≤ tldRev.length) && decide (tldRev.length ≤ 6)
  | _ => false

/-- Result triple of `validate_email`. -/
structure EmailResult where
  valid : Bool
  email : Str
  error : Str
deriving DecidableEq

/-- `validate_email(email)`: empty (after trim) is valid-and-empty,
otherwise the regex decides. -/
def validate_email (email : Str) : EmailResult :=
  if email = [] then ⟨true, [], []⟩
  else
    let e := pyStrip email
    if e = [] then ⟨true, [], []⟩
    else if emailOk e then ⟨true, e, []⟩
    else ⟨false, e, S "Email inválido: '" ++ e ++ S "'"⟩

/-- The Levenshtein dynamic-programming matrix of `calculate_similarity`:
`levM s1 s2 i j` is `matrix[i][j]`, the edit distance between the first `i`
characters of `s1` and the first `j` characters of `s2`, filled by the
source's recurrence (deletion, insertion, substitution). -/
def levM (s1 s2 : Str) : Nat → Nat → Nat
  | i, 0 => i
  | 0, j + 1 => j + 1
  | i + 1, j + 1 =>
    min (levM s1 s2 i (j + 1) + 1)
      (min (levM s1 s2 (i + 1) j + 1)
        (levM s1 s2 i j + (if s1.getD i ' ' = s2.getD j ' ' then 0 else 1)))
termination_by i j => (i, j)

/-- `calculate_similarity(str1, str2)`, with Python floats modelled as
exact rationals: `0.0` if either string is empty, `1.0` on (lower-cased)
equality, otherwise `1 - distance/max_len`. -/
def calculate_similarity (s1 s2 : Str) : ℚ :=
  if s1 = [] ∨ s2 = [] then 0
  else
    let t1 := s1.map pyLower
    let t2 := s2.map pyLower
    if t1 = t2 then 1
    else
      let len1 := t1.length
      let len2 := t2.length
      if len1 = 0 ∨ len2 = 0 then 0
      else
        let d := levM t1 t2 len1 len2
        1 - (d : ℚ) / ((max len1 len2 : Nat) : ℚ)

/-- Python `round(x, 3)` on an exact rational: round half to even. -/
def pyRound3 (x : ℚ) : ℚ :=
  let y := x * 1000
  let f := y.floor
  let r := y - f
  (if r < 1 / 2 then (f : ℚ)
   else if 1 / 2 < r then (f : ℚ) + 1
   else if f % 2 = 0 then (f : ℚ) else (f : ℚ) + 1) / 1000

/-- One match reported by `detect_similar_names`: the existing name, its
`id` (absent for the service's name cache, hence always `none` there) and
the rounded score. -/
structure SimilarMatch where
  nome_existente : Str
  id_existente : Option Nat
  similaridade : ℚ
deriving DecidableEq

/-- An entry of the service's `nomes_processados` cache:
`{"nome": ..., "row_index": ...}` (no `"id"` key). -/
structure NomeEntry where
  nome : Str
  row_index : Nat
deriving DecidableEq

/-- `detect_similar_names(new_name, existing_names, threshold)` as invoked
by the service: keeps scores in `[threshold, 1)`; `existing.get("id")` is
`None` because the cache entries carry no `id` key. -/
def detect_similar_names (new_name : Str) (existing : List NomeEntry) (threshold : ℚ) :
    List SimilarMatch :=
  existing.filterMap (fun e =>
    let sim := calculate_similarity new_name e.nome
    if threshold ≤ sim ∧ sim < 1 then
      some ⟨e.nome, none, pyRound3 sim⟩
    else none)

/-! ## `app/utils/csv_processor.py` -/

/-- Composite key of `detect_duplicates`: each key field's value, trimmed
and uppercased.  The source feeds the tuple's `str` through `md5` and
groups by the digest; the embedding groups by the tuple itself, treating
the hash as injective (the only use of the digest is as a dict key). -/
def rowKeyDD (key_fields : List Str) (row : List (Str × Str)) : List Str :=
  key_fields.map (fun f => (pyStrip (getDA row f [])).map upperChar)

/-- Append an index to an existing group of the `duplicates` dict. -/
def appendIdx (l : List (List Str × List Nat)) (k : List Str) (i : Nat) :
    List (List Str × List Nat) :=
  l.map (fun p => if p.1 = k then (p.1, p.2 ++ [i]) else p)

/-- The enumeration loop of `detect_duplicates`: `seen` maps a key to the
first index carrying it, `dups` holds the reported groups. -/
def ddGo (key_fields : List Str) :
    Nat → List (List Str × Nat) → List (List Str × List Nat) →
    List (List (Str × Str)) → List (List Str × List Nat)
  | _, _, dups, [] => dups
  | i, seen, dups, row :: rest =>
    let k := rowKeyDD key_fields row
    match lookupA seen k with
    | some j =>
      match lookupA dups k with
      | some _ => ddGo key_fields (i + 1) seen (appendIdx dups k i) rest
      | none => ddGo key_fields (i + 1) seen (insertA dups k [j, i]) rest
    | none => ddGo key_fields (i + 1) (insertA seen k i) dups rest

/-- `detect_duplicates(data_list, key_fields)`. -/
def detect_duplicates (data_list : List (List (Str × Str))) (key_fields : List Str) :
    List (List Str × List Nat) :=
  ddGo key_fields 0 [] [] data_list

/-- Result of `parse_csv_basic`.  The source returns one of two dict
shapes; the embedding merges them into one record, with `message` empty on
success and `total_rows` zero on failure. -/
structure ParseResult where
  success : Bool
  message : Str
  headers : List Str
  data_rows : List (List Str)
  total_rows : Nat
deriving DecidableEq

/-- The non-blank stripped lines of the upload
(`[line.strip() for line in content.split('\n') if line.strip()]`). -/
def nonBlankLines (content : Str) : List Str :=
  ((splitOnCharL '\n' content).map pyStrip).filter (fun l => decide (l ≠ []))

/-- Delimiter detection of `parse_csv_basic`: semicolon when present and
strictly more frequent than the comma in the header line, else comma. -/
def csvDelim (l : Str) : Char :=
  if ';' ∈ l ∧ l.count ',' < l.count ';' then ';' else ','

/-- The character loop of `parse_csv_basic`: split on the delimiter
outside double quotes (quotes toggle the in-quotes flag and are dropped),
stripping each field. -/
def splitQuoted (d : Char) : Str → Str → Bool → List Str
  | [], cur, _ => [pyStrip cur.reverse]
  | c :: rest, cur, inq =>
    if c = '"' then splitQuoted d rest cur (!inq)
    else if c = d ∧ inq = false then pyStrip cur.reverse :: splitQuoted d rest [] inq
    else splitQuoted d rest (c :: cur) inq

/-- One data line of `parse_csv_basic`: quote-aware split, right-padded
with empty fields to the header width and truncated to it. -/
def parseCsvLine (d : Char) (ncols : Nat) (line : Str) : List Str :=
  let vs := splitQuoted d line [] false
  (vs ++ List.replicate (ncols - vs.length) []).take ncols

/-- `parse_csv_basic(file_content)`. -/
def parse_csv_basic (content : Str) : ParseResult :=
  match nonBlankLines content with
  | l0 :: l1 :: rest =>
    let d := csvDelim l0
    let headers := (splitOnCharL d l0).map (fun h => (pyStrip h).map upperChar)
    let data_rows := (l1 :: rest).map (parseCsvLine d headers.length)
    ⟨true, [], headers, data_rows, data_rows.length⟩
  | _ =>
    ⟨false,
      S "O arquivo deve conter pelo menos uma linha de cabeçalho e uma linha de dados.",
      [], [], 0⟩

/-! ## `app/services/alunos_service.py` -/

/-- Python `sep.join(items)`. -/
def joinWith (sep : Str) : List Str → Str
  | [] => []
  | [w] => w
  | w :: ws => w ++ sep ++ joinWith sep ws

/-- Logical field name `nome`. -/
def fNome : Str := S "nome"

/-- Logical field name `ra`. -/
def fRa : Str := S "ra"

/-- Logical field name `escola`. -/
def fEscola : Str := S "escola"

/-- Logical field name `serie`. -/
def fSerie : Str := S "serie"

/-- Logical field name `turma`. -/
def fTurma : Str := S "turma"

/-- Logical field name `email`. -/
def fEmail : Str := S "email"

/-- Logical field name `senha`. -/
def fSenha : Str := S "senha"

/-- The fixed required logical fields of steps 2 and 3. -/
def requiredFields_src : List Str := [fNome, fEscola, fSerie, fTurma, fRa]

/-- The identity fields whose join forms the step-3 full-row duplicate key. -/
def identityFields_src : List Str := [fNome, fRa, fEscola, fSerie, fTurma]

/-- One conflict dict of step 3. -/
structure ConflictInfo where
  ctype : Str
  field : Str
  value : Str
  message : Str
  duplicate_row : Option Nat := none
  existing_id : Option Nat := none
  existing_name : Option Str := none
deriving DecidableEq

/-- One entry of `validation_results["valid_rows"]`; the three resolution
flags are absent keys until step 4 sets them, modelled as default-false
fields (step 5 reads them with `row.get(flag, False)`). -/
structure ValidRow where
  row_index : Nat
  data : List (Str × Str)
  conflicts : List ConflictInfo
  skip_import : Bool := false
  import_with_conflict : Bool := false
  update_existing : Bool := false
deriving DecidableEq

/-- One entry of `validation_results["invalid_rows"]`. -/
structure InvalidRow where
  row_index : Nat
  data : List (Str × Str)
  errors : List Str
deriving DecidableEq

/-- One entry of `validation_results["duplicates"]`. -/
structure DupEntry where
  row_index : Nat
  duplicate_of : Nat
  data : List (Str × Str)
deriving DecidableEq

/-- One entry of `validation_results["special_chars_errors"]`. -/
structure SCEntry where
  row_index : Nat
  field : Str
  value : Str
  data : List (Str × Str)
deriving DecidableEq

/-- One entry of `validation_results["similar_names"]`; `linha_similar` is
`similar.get("row_index")` on a dict that never carries that key, hence
always `none`. -/
structure SimEntry where
  row_index : Nat
  nome_atual : Str
  nome_similar : Str
  similaridade : ℚ
  linha_similar : Option Nat
  data : List (Str × Str)
deriving DecidableEq

/-- The `validation_results` dict produced by step 3. -/
structure ValidationResults where
  valid_rows : List ValidRow
  invalid_rows : List InvalidRow
  warnings : List Str
  conflicts : List (Nat × ConflictInfo)
  duplicates : List DupEntry
  special_chars_errors : List SCEntry
  similar_names : List SimEntry
deriving DecidableEq

/-- One entry of `import_results["detalhes"]`.  `aluno_id` is an int in
the real path and the string `demo_<i>` in the demo path; both are
rendered as strings here. -/
structure ImportDetail where
  row_index : Nat
  ra : Str
  nome : Str
  status : Str
  nome_existente : Option Str := none
  aluno_id : Option Str := none
deriving DecidableEq

/-- One entry of `import_results["erros"]`. -/
structure ImportError where
  row_index : Nat
  ra : Str
  nome : Str
  error : Str
deriving DecidableEq

/-- The `import_results` dict produced by step 5. -/
structure ImportResults where
  alunos_criados : Nat
  alunos_com_ra_duplicado : Nat
  erros : List ImportError
  detalhes : List ImportDetail
deriving DecidableEq

/-- One session record of the module-level `import_sessions` dict. -/
structure Session where
  step : Nat
  filename : Str
  headers : List Str
  data_rows : List (List Str)
  total_rows : Nat
  created_at : Nat
  mapping : List (Nat × Str)
  validation_results : Option ValidationResults
  conflicts : List (Nat × ConflictInfo)
  import_results : Option ImportResults
  db_name : Option Str
deriving DecidableEq

/-- The module-level `import_sessions` registry. -/
abbrev Sessions := List (Str × Session)

/-- The structured result every step returns (`success`, message, step
number, plus the step-specific keys the claims reference). -/
structure StepResult where
  success : Bool
  message : Str
  step : Nat
  session_id : Option Str := none
  missing_fields : List Str := []
deriving DecidableEq

/-- A row of the `usuarios` table as step 5 inserts it. -/
structure UsuarioRow where
  u_id : Nat
  u_login : Str
  u_senha : Str
  u_nome : Str
  u_email_fk : Option Nat
  u_grupos : Nat
  u_instituicao : Nat
deriving DecidableEq

/-- A row of the `alunos` table as step 5 inserts it. -/
structure AlunoRow where
  a_id : Nat
  a_usuario_fk : Nat
  a_matricula : Str
  a_turma : Nat
  a_numero_chamada : Option Str
  a_portador_necessidade : Nat
deriving DecidableEq

/-- The external MySQL store, reduced to the tables and auto-increment
counters the service touches.  Name lookups return the first matching row
(`fetchone`). -/
structure RealDB where
  instituicoes : List (Str × Nat)
  series : List (Str × Nat)
  turmas : List ((Str × Nat × Nat) × Nat)
  usuarios : List UsuarioRow
  alunos : List AlunoRow
  emails : List (Str × Nat)
  nextEmailId : Nat
  nextUsuarioId : Nat
  nextAlunoId : Nat
deriving DecidableEq

/-- The `alunos INNER JOIN usuarios` lookup by `a_matricula`, returning
`(a_id, a_usuario, u_nome)`. -/
def findAlunoByMatricula (db : RealDB) (ra : Str) : Option (Nat × Nat × Str) :=
  (db.alunos.find? (fun a => decide (a.a_matricula = ra))).bind (fun a =>
    (db.usuarios.find? (fun u => decide (u.u_id = a.a_usuario_fk))).map
      (fun u => (a.a_id, a.a_usuario_fk, u.u_nome)))

/-- A database handle: `none` is the demo `MockConnection` (its `fetchone`
always yields `None`), `some` is a live connection. -/
abbrev DBHandle := Option RealDB

/-- Step 3's demo-mode test: the mock connection, or a live store whose
`instituicoes` count is zero. -/
def step3DemoMode : DBHandle → Bool
  | none => true
  | some d => d.instituicoes.isEmpty

/-- Python truthiness of the optional `db_name` argument guarding
`session["db_name"] = db_name`. -/
def updateDbName (old new : Option Str) : Option Str :=
  match new with
  | some d => if d ≠ [] then some d else old
  | none => old

/-- Accumulator of the per-row field-extraction loop of step 3 (the part
of the loop body before the duplicate check): the `row_data` dict built so
far, the `is_valid` flag, the accumulated `row_errors`, and the
special-character error entries emitted so far (field, value, snapshot of
`row_data`). -/
structure RowAnalysis where
  data : List (Str × Str)
  ok : Bool
  errors : List Str
  scs : List (Str × Str × List (Str × Str))
deriving DecidableEq

/-- One iteration of the extraction loop, for a mapped `(field, column)`
pair: strip the cell (lower-casing e-mails), record it under the field,
and run the required/e-mail/special-character validations in source
order. -/
def extractStep (row : List Str) (acc : RowAnalysis) (p : Str × Nat) : RowAnalysis :=
  let field := p.1
  let colIndex := p.2
  if colIndex < row.length then
    let v0 := pyStrip (row.getD colIndex [])
    let value := if field = fEmail then pyStrip (v0.map pyLower) else v0
    let data1 := insertA acc.data field value
    let e1 :=
      if field ∈ requiredFields_src ∧ value = [] then
        [S "Campo '" ++ field ++ S "' é obrigatório"]
      else []
    let e2 :=
      if field = fEmail ∧ value ≠ [] ∧ (validate_email value).valid = false then
        [(validate_email value).error]
      else []
    let scHit := field ∈ [fNome, fEscola, fSerie, fTurma] ∧ value ≠ [] ∧
      has_special_characters value = true
    let e3 :=
      if scHit then
        [S "Campo '" ++ field ++ S "' contém caracteres especiais não permitidos: '" ++
          value ++ S "'"]
      else []
    { data := data1,
      ok := acc.ok && decide (e1 = [] ∧ e2 = [] ∧ e3 = []),
      errors := acc.errors ++ e1 ++ e2 ++ e3,
      scs := acc.scs ++ (if scHit then [(field, value, data1)] else []) }
  else
    let data1 := insertA acc.data field []
    if field ∈ requiredFields_src then
      { data := data1, ok := false,
        errors := acc.errors ++ [S "Campo '" ++ field ++ S "' não encontrado"],
        scs := acc.scs }
    else { acc with data := data1 }

/-- The whole extraction loop over `field_indices`. -/
def extractRow (fidx : List (Str × Nat)) (row : List Str) : RowAnalysis :=
  fidx.foldl (extractStep row) ⟨[], true, [], []⟩

/-- The step-3 full-row duplicate key
(`"|".join(row_data.get(f, "") for f in identity fields)`). -/
def rowKeyOf (fidx : List (Str × Nat)) (row : List Str) : Str :=
  joinWith (S "|") (identityFields_src.map (fun f => getDA (extractRow fidx row).data f []))

/-- The mutable state of step 3's validation loop: the outcome lists under
construction plus the three caches (`ras_encontrados`, `rows_hash`,
`nomes_processados`). -/
structure V3State where
  valid_rows : List ValidRow
  invalid_rows : List InvalidRow
  conflicts : List (Nat × ConflictInfo)
  duplicates : List DupEntry
  special_chars_errors : List SCEntry
  similar_names : List SimEntry
  rasEncontrados : List (Str × Nat)
  rowsHash : List (Str × Nat)
  nomesProcessados : List NomeEntry
deriving DecidableEq

/-- The initial `validation_results`/caches state. -/
def emptyV3 : V3State := ⟨[], [], [], [], [], [], [], [], []⟩

/-- The school/grade/class existence checks of step 3 (production mode):
the error messages they append, in source order; the row stays valid iff
none fires. -/
def dbExistenceErrors (d : RealDB) (data : List (Str × Str)) : List Str :=
  let eo := lookupA d.instituicoes (getDA data fEscola [])
  let so := lookupA d.series (getDA data fSerie [])
  let e1 :=
    if eo.isNone then [S "Escola '" ++ getDA data fEscola [] ++ S "' não existe no sistema"]
    else []
  let e2 :=
    if so.isNone then [S "Série '" ++ getDA data fSerie [] ++ S "' não existe no sistema"]
    else []
  let e3 :=
    match eo, so with
    | some eid, some sid =>
      if (lookupA d.turmas (getDA data fTurma [], sid, eid)).isNone then
        [S "Turma '" ++ getDA data fTurma [] ++ S "' não existe para a escola '" ++
          getDA data fEscola [] ++ S "' e série '" ++ getDA data fSerie [] ++ S "'"]
      else []
    | _, _ => []
  e1 ++ e2 ++ e3

/-- The external identifier of an analysed row (`row_data.get('ra', '')`). -/
def raOfAn (an : RowAnalysis) : Str := getDA an.data fRa []

/-- The `ra_duplicado_arquivo` conflict dict. -/
def raDupConflict (ra : Str) (j i : Nat) : ConflictInfo :=
  ⟨S "ra_duplicado_arquivo", fRa, ra,
    S "RA '" ++ ra ++ S "' está duplicado no arquivo (linha " ++ natToChars (j + 1) ++
      S " e " ++ natToChars (i + 1) ++ S ")",
    some j, none, none⟩

/-- The `aluno_duplicado` conflict dict. -/
def alunoDupConflict (ra : Str) (q : Nat × Nat × Str) : ConflictInfo :=
  ⟨S "aluno_duplicado", fRa, ra,
    S "Aluno com RA '" ++ ra ++ S "' já existe no sistema (Nome: " ++ q.2.2 ++ S ")",
    none, some q.1, some q.2.2⟩

/-- The incremental similar-name detection of step 3 (only reached by
non-duplicate rows). -/
def simUpd (st : V3State) (an : RowAnalysis) (i : Nat) : V3State :=
  if getDA an.data fNome [] ≠ [] then
    let nome := getDA an.data fNome []
    let sims := detect_similar_names nome st.nomesProcessados (7 / 10)
    { st with
      similar_names := st.similar_names ++
        sims.map (fun (s : SimilarMatch) =>
          (⟨i, nome, s.nome_existente, s.similaridade, none, an.data⟩ : SimEntry)),
      nomesProcessados := st.nomesProcessados ++ [(⟨nome, i⟩ : NomeEntry)] }
  else st

/-- The school/grade/class existence errors a row picks up, empty in demo
mode or when the row is already invalid. -/
def dbErrsOf (db : DBHandle) (an : RowAnalysis) : List Str :=
  if an.ok = true ∧ step3DemoMode db = false then
    match db with
    | some d => dbExistenceErrors d an.data
    | none => []
  else []

/-- The conflicts attached to a valid row, given the `ras_encontrados`
cache at the time the row is processed: the in-file duplicate-RA conflict
and the pre-existing-student conflict, in source order. -/
def rowConflictsOf (db : DBHandle) (ras : List (Str × Nat)) (an : RowAnalysis) (i : Nat) :
    List ConflictInfo :=
  (if raOfAn an ≠ [] then
    match lookupA ras (raOfAn an) with
    | some j => [raDupConflict (raOfAn an) j i]
    | none => []
  else []) ++
  (match
    (if raOfAn an ≠ [] then
      (if step3DemoMode db then none
       else db.bind (fun d => findAlunoByMatricula d (raOfAn an)))
    else none) with
  | some q => [alunoDupConflict (raOfAn an) q]
  | none => [])

/-- The `ras_encontrados` cache after a valid row: the first valid row
carrying a non-empty RA registers it. -/
def rasAfter (ras : List (Str × Nat)) (an : RowAnalysis) (i : Nat) : List (Str × Nat) :=
  if raOfAn an ≠ [] then
    match lookupA ras (raOfAn an) with
    | some _ => ras
    | none => insertA ras (raOfAn an) i
  else ras

/-- The body of step 3's `for row_index, row in enumerate(data_rows)`
loop: extraction and validation, full-row duplicate exclusion, similar-name
detection, existence checks, and conflict detection (`ra_duplicado_arquivo`
against the file, `aluno_duplicado` against the store). -/
def processRow (db : DBHandle) (fidx : List (Str × Nat)) (st : V3State) (i : Nat)
    (row : List Str) : V3State :=
  let an := extractRow fidx row
  let st0 := { st with special_chars_errors :=
    st.special_chars_errors ++ an.scs.map (fun (p : Str × Str × List (Str × Str)) =>
      (⟨i, p.1, p.2.1, p.2.2⟩ : SCEntry)) }
  match lookupA st0.rowsHash (rowKeyOf fidx row) with
  | some j => { st0 with duplicates := st0.duplicates ++ [(⟨i, j, an.data⟩ : DupEntry)] }
  | none =>
    let st2 := simUpd { st0 with rowsHash := insertA st0.rowsHash (rowKeyOf fidx row) i } an i
    if an.ok && decide (dbErrsOf db an = []) then
      { st2 with
        rasEncontrados := rasAfter st2.rasEncontrados an i,
        valid_rows := st2.valid_rows ++
          [(⟨i, an.data, rowConflictsOf db st2.rasEncontrados an i, false, false, false⟩ :
            ValidRow)],
        conflicts := st2.conflicts ++
          (rowConflictsOf db st2.rasEncontrados an i).map (fun c => (i, c)) }
    else
      { st2 with invalid_rows := st2.invalid_rows ++
        [(⟨i, an.data, an.errors ++ dbErrsOf db an⟩ : InvalidRow)] }

/-- Step 3's enumeration loop. -/
def step3Go (db : DBHandle) (fidx : List (Str × Nat)) :
    Nat → V3State → List (List Str) → V3State
  | _, st, [] => st
  | i, st, r :: rs => step3Go db fidx (i + 1) (processRow db fidx st i r) rs

/-- Step 3's loop run from the initial state, as invoked on a session's
rows. -/
def step3Run (db : DBHandle) (fidx : List (Str × Nat)) (rows : List (List Str)) : V3State :=
  step3Go db fidx 0 emptyV3 rows

/-- `field_indices` of step 3: invert the stored column-index-to-field
mapping into field-to-column (later columns overwrite earlier ones mapped
to the same field), skipping `NULO`. -/
def mkFieldIndices (mapping : List (Nat × Str)) : List (Str × Nat) :=
  mapping.foldl (fun acc p => if p.2 ≠ S "NULO" then insertA acc p.2 p.1 else acc) []

/-- The session id allocated by step 1:
`f"import_{int(time.time())}_{filename}"`, with the wall clock passed in
explicitly (`t` is the integral Unix second). -/
def mkSessionId (t : Nat) (filename : Str) : Str :=
  S "import_" ++ natToChars t ++ S "_" ++ filename

/-- `AlunosService.step1_upload_validacao`, the wall clock (`time.time()`,
truncated to the second) passed explicitly. -/
def step1_upload_validacao (t : Nat) (filename content : Str) (file_size : Nat)
    (db_name : Option Str) (sessions : Sessions) : StepResult × Sessions :=
  if (S ".csv").isSuffixOf (filename.map pyLower) = false then
    (⟨false, S "Formato de arquivo inválido. Apenas arquivos CSV são aceitos.", 1, none, []⟩,
      sessions)
  else if 25 * 1024 * 1024 < file_size then
    (⟨false, S "Arquivo muito grande. Tamanho máximo: 25MB.", 1, none, []⟩, sessions)
  else
    let pr := parse_csv_basic content
    if pr.success = false then (⟨false, pr.message, 1, none, []⟩, sessions)
    else
      let nr := pr.data_rows.map (fun row => row.map (fun cell => pyStrip (cell.map upperChar)))
      let sid := mkSessionId t filename
      let sess : Session := ⟨1, filename, pr.headers, nr, nr.length, t, [], none, [], none, db_name⟩
      (⟨true,
        S "Arquivo processado com sucesso! " ++ natToChars nr.length ++
          S " registros encontrados.",
        1, some sid, []⟩,
        insertA sessions sid sess)

/-- The fixed frontend-slot-to-logical-field table of step 2. -/
def field_mappings_src : List (Str × Str) :=
  [(S "nome_coluna", fNome), (S "ra_coluna", fRa), (S "email_coluna", fEmail),
   (S "instituicao_coluna", fEscola), (S "serie_coluna", fSerie), (S "turma_coluna", fTurma),
   (S "senha_coluna", fSenha), (S "numero_chamada_coluna", S "numero_chamada"),
   (S "portador_necessidade_coluna", S "portador_necessidade")]

/-- `AlunosService.step2_validar_mapeamento`. -/
def step2_validar_mapeamento (sessions : Sessions) (session_id : Str)
    (mapping : List (Str × Str)) (db_name : Option Str) : StepResult × Sessions :=
  match lookupA sessions session_id with
  | none =>
    (⟨false, S "Sessão de importação não encontrada ou expirada. Session ID: " ++ session_id,
      2, none, []⟩, sessions)
  | some sess =>
    let headers := sess.headers
    let im := field_mappings_src.foldl (fun acc p =>
      match lookupA mapping p.1 with
      | none => acc
      | some cn =>
        if cn = [] then acc
        else
          match indexOfA headers cn with
          | some i => insertA acc i p.2
          | none =>
            match indexOfA (headers.map pyStrip) (pyStrip cn) with
            | some i => insertA acc i p.2
            | none => acc) []
    let mapped := im.map (·.2)
    let missing := requiredFields_src.filter (fun f => decide (f ∉ mapped))
    if missing = [] then
      let sess1 := { sess with mapping := im, step := 2, db_name := updateDbName sess.db_name db_name }
      (⟨true, S "Mapeamento validado com sucesso!", 2, some session_id, []⟩,
        insertA sessions session_id sess1)
    else
      (⟨false, S "Campos obrigatórios não mapeados: " ++ joinWith (S ", ") missing,
        2, none, missing⟩, sessions)

/-- `AlunosService.step3_validar_detectar_conflitos`; the store handle is
the connection `get_db_connection` yields for the call. -/
def step3_validar_detectar_conflitos (sessions : Sessions) (session_id : Str)
    (db_name : Option Str) (db : DBHandle) : StepResult × Sessions :=
  match lookupA sessions session_id with
  | none => (⟨false, S "Sessão de importação não encontrada.", 3, none, []⟩, sessions)
  | some sess =>
    if sess.step < 2 then
      (⟨false, S "É necessário completar o mapeamento primeiro.", 3, none, []⟩, sessions)
    else
      let sess0 := { sess with db_name := updateDbName sess.db_name db_name }
      let fidx := mkFieldIndices sess0.mapping
      let final := step3Run db fidx sess0.data_rows
      let vr : ValidationResults :=
        ⟨final.valid_rows, final.invalid_rows, [], final.conflicts, final.duplicates,
          final.special_chars_errors, final.similar_names⟩
      let sess1 := { sess0 with validation_results := some vr, conflicts := final.conflicts, step := 3 }
      (⟨true, S "Validação concluída com sucesso!", 3, some session_id, []⟩,
        insertA sessions session_id sess1)

/-- Apply one resolution to the first valid row carrying the given index
(`skip` / `import_anyway` / `update_existing`); returns the updated list
and how many resolutions were counted as applied. -/
def applyOneResolution (rows : List ValidRow) (ri : Nat) (action : Str) :
    List ValidRow × Nat :=
  match rows with
  | [] => ([], 0)
  | r :: rest =>
    if r.row_index = ri then
      if action = S "skip" then ({ r with skip_import := true } :: rest, 1)
      else if action = S "import_anyway" then ({ r with import_with_conflict := true } :: rest, 1)
      else if action = S "update_existing" then ({ r with update_existing := true } :: rest, 1)
      else (r :: rest, 0)
    else
      let q := applyOneResolution rest ri action
      (r :: q.1, q.2)

/-- `AlunosService.step4_resolver_conflitos`: apply the resolutions and
drop every conflict whose row index appears in the resolution set. -/
def step4_resolver_conflitos (sessions : Sessions) (session_id : Str)
    (conflict_resolutions : List (Nat × Str)) (db_name : Option Str) :
    StepResult × Sessions :=
  match lookupA sessions session_id with
  | none => (⟨false, S "Sessão de importação não encontrada.", 4, none, []⟩, sessions)
  | some sess =>
    if sess.step < 3 then
      (⟨false, S "É necessário completar a validação primeiro.", 4, none, []⟩, sessions)
    else
      match sess.validation_results with
      | none =>
        (⟨false, S "Erro na resolução de conflitos: 'NoneType' object is not subscriptable",
          4, none, []⟩, sessions)
      | some vr =>
        let sess0 := { sess with db_name := updateDbName sess.db_name db_name }
        let applied := conflict_resolutions.foldl
          (fun (acc : List ValidRow × Nat) q =>
            let out := applyOneResolution acc.1 q.1 q.2
            (out.1, acc.2 + out.2))
          (vr.valid_rows, 0)
        let remaining := vr.conflicts.filter
          (fun c => !(conflict_resolutions.any (fun q => decide (q.1 = c.1))))
        let vr1 := { vr with valid_rows := applied.1, conflicts := remaining }
        let sess1 := { sess0 with validation_results := some vr1, step := 4 }
        (⟨true, S "Conflitos resolvidos com sucesso!", 4, some session_id, []⟩,
          insertA sessions session_id sess1)

/-- Truthiness table of `portador_necessidade`
(`value.lower() in ["sim", "s", "1", "true"]`). -/
def pnTruthy (v : Str) : Bool :=
  decide (v.map pyLower ∈ [S "sim", S "s", S "1", S "true"])

/-- The body of step 5's import loop in production mode: resolve the
school/grade/class ids, skip rows whose external id already exists, create
the e-mail record if needed, then the `usuarios` row (login = RA, password
= `data.get("senha", "123456")`), then the `alunos` row.  A failed entity
lookup raises in the source (`None` subscripted) and is recorded as a
per-row error. -/
def importOneRow (acc : RealDB × ImportResults) (row : ValidRow) : RealDB × ImportResults :=
  let db := acc.1
  let res := acc.2
  if row.skip_import then acc
  else
    let data := row.data
    match lookupA db.instituicoes (getDA data fEscola []) with
    | none =>
      (db, { res with erros := res.erros ++
        [⟨row.row_index, getDA data fRa [], getDA data fNome [],
          S "'NoneType' object is not subscriptable"⟩] })
    | some escola_id =>
      match lookupA db.series (getDA data fSerie []) with
      | none =>
        (db, { res with erros := res.erros ++
          [⟨row.row_index, getDA data fRa [], getDA data fNome [],
            S "'NoneType' object is not subscriptable"⟩] })
      | some serie_id =>
        match lookupA db.turmas (getDA data fTurma [], serie_id, escola_id) with
        | none =>
          (db, { res with erros := res.erros ++
            [⟨row.row_index, getDA data fRa [], getDA data fNome [],
              S "'NoneType' object is not subscriptable"⟩] })
        | some turma_id =>
          let ra := getDA data fRa []
          let nome := getDA data fNome []
          let email := getDA data fEmail []
          let senha := getDA data fSenha (S "123456")
          match findAlunoByMatricula db ra with
          | some q =>
            (db, { res with
              alunos_com_ra_duplicado := res.alunos_com_ra_duplicado + 1,
              detalhes := res.detalhes ++
                [⟨row.row_index, ra, nome, S "RA já existe", some q.2.2, none⟩] })
          | none =>
            let db1emailfk :=
              if email ≠ [] then
                match lookupA db.emails email with
                | some eid => (db, some eid)
                | none =>
                  ({ db with emails := db.emails ++ [(email, db.nextEmailId)], nextEmailId := db.nextEmailId + 1 }, some db.nextEmailId)
              else (db, none)
            let db1 := db1emailfk.1
            let uid := db1.nextUsuarioId
            let db2 := { db1 with
              usuarios := db1.usuarios ++ [(⟨uid, ra, senha, nome, db1emailfk.2, 4, escola_id⟩ : UsuarioRow)],
              nextUsuarioId := uid + 1 }
            let nc := lookupA data (S "numero_chamada")
            let pn := if pnTruthy (getDA data (S "portador_necessidade") []) then 1 else 0
            let aid := db2.nextAlunoId
            let db3 := { db2 with
              alunos := db2.alunos ++ [(⟨aid, uid, ra, turma_id, nc, pn⟩ : AlunoRow)],
              nextAlunoId := aid + 1 }
            (db3, { res with
              alunos_criados := res.alunos_criados + 1,
              detalhes := res.detalhes ++
                [⟨row.row_index, ra, nome, S "Importado com sucesso", none,
                  some (natToChars aid)⟩] })

/-- The body of step 5's import loop in demo mode (mock connection): only
the RA `202401001` simulates a pre-existing student. -/
def importDemoRow (res : ImportResults) (row : ValidRow) : ImportResults :=
  if row.skip_import then res
  else
    let ra := getDA row.data fRa []
    let nome := getDA row.data fNome []
    if ra = S "202401001" then
      { res with
        alunos_com_ra_duplicado := res.alunos_com_ra_duplicado + 1,
        detalhes := res.detalhes ++
          [(⟨row.row_index, ra, nome, S "RA já existe (DEMO)", some (S "Aluno Simulado"), none⟩ : ImportDetail)] }
    else
      { res with
        alunos_criados := res.alunos_criados + 1,
        detalhes := res.detalhes ++
          [(⟨row.row_index, ra, nome, S "Importado com sucesso (DEMO)", none,
            some (S "demo_" ++ natToChars row.row_index)⟩ : ImportDetail)] }

/-- `AlunosService.step5_importar_final`.  Step 5 decides demo mode by
`SELECT 1` returning no row, which happens exactly on the mock connection
(`db = none`).  Returns the step result, the updated sessions registry and
the store after the batch's single transaction (the per-row exception
handling keeps the loop going; the whole-loop rollback path is unreachable
in the model because every row-level failure is caught). -/
def step5_importar_final (sessions : Sessions) (session_id : Str) (db_name : Option Str)
    (db : DBHandle) : StepResult × Sessions × DBHandle :=
  match lookupA sessions session_id with
  | none => (⟨false, S "Sessão de importação não encontrada.", 5, none, []⟩, sessions, db)
  | some sess =>
    if sess.step < 3 then
      (⟨false, S "É necessário completar a validação primeiro.", 5, none, []⟩, sessions, db)
    else
      match sess.validation_results with
      | none =>
        (⟨false, S "Erro na importação: 'NoneType' object is not subscriptable", 5, none, []⟩,
          sessions, db)
      | some vr =>
        let sess0 := { sess with db_name := updateDbName sess.db_name db_name }
        let rows_to_import := vr.valid_rows.filter (fun r => !r.skip_import)
        let res0 : ImportResults := ⟨0, 0, [], []⟩
        let outcome :=
          match db with
          | none => ((none : DBHandle), rows_to_import.foldl importDemoRow res0)
          | some d =>
            let out := rows_to_import.foldl importOneRow (d, res0)
            (some out.1, out.2)
        let res := outcome.2
        let sess1 := { sess0 with import_results := some res, step := 5 }
        (⟨true,
          S "Importação concluída! " ++ natToChars res.alunos_criados ++
            S " alunos criados. " ++ natToChars res.alunos_com_ra_duplicado ++
            S " com RA já existente.",
          5, some session_id, []⟩,
          insertA sessions session_id sess1, outcome.1)

/-! ## Auxiliary definitions for the statements -/

/-- The character class described by the specification's words for
`has_special_characters`: letters — ASCII or accented Latin-1 letters
(the Latin-1 block without the two operators `×` U+00D7 and `÷` U+00F7,
which are not letters) — digits, and spaces. -/
def claimAllowedChar (c : Char) : Bool :=
  decide ((65 ≤ c.toNat ∧ c.toNat ≤ 90) ∨ (97 ≤ c.toNat ∧ c.toNat ≤ 122) ∨
    (48 ≤ c.toNat ∧ c.toNat ≤ 57) ∨ c = ' ' ∨
    (192 ≤ c.toNat ∧ c.toNat ≤ 255 ∧ c.toNat ≠ 215 ∧ c.toNat ≠ 247))

/-- First index `i < n` with `kf i = k` (used to characterise the
`rows_hash` cache of step 3). -/
def firstIdx (kf : Nat → Str) : Nat → Str → Option Nat
  | 0, _ => none
  | n + 1, k =>
    match firstIdx kf n k with
    | some j => some j
    | none => if kf n = k then some n else none

/-- The full-row duplicate key of the `i`-th uploaded row. -/
def rowKeyAt (fidx : List (Str × Nat)) (rows : List (List Str)) (i : Nat) : Str :=
  rowKeyOf fidx (rows.getD i [])

/-- Whether a valid-row entry carries a `ra_duplicado_arquivo` conflict. -/
def hasRaDupConflict (e : ValidRow) : Prop :=
  ∃ c ∈ e.conflicts, c.ctype = S "ra_duplicado_arquivo"

instance (e : ValidRow) : Decidable (hasRaDupConflict e) := by
  unfold hasRaDupConflict
  infer_instance

/-- The external identifier a valid-row entry carries
(`row["data"].get("ra", "")`). -/
def raOfE (e : ValidRow) : Str := getDA e.data fRa []

/-- The indices (from `i` on) of the rows whose `detect_duplicates`
composite key equals `k`. -/
def keyIdxs (key_fields : List Str) (k : List Str) :
    Nat → List (List (Str × Str)) → List Nat
  | _, [] => []
  | i, row :: rest =>
    (if rowKeyDD key_fields row = k then [i] else []) ++ keyIdxs key_fields k (i + 1) rest

/-- The character repertoire of `normalize_text` outputs: upper-case ASCII
letters, digits and the plain space. -/
def sigmaChar (c : Char) : Prop :=
  (65 ≤ c.toNat ∧ c.toNat ≤ 90) ∨ (48 ≤ c.toNat ∧ c.toNat ≤ 57) ∨ c = ' '

/-- Placeholder entry for index-based access to the valid-rows list. -/
def dummyVR : ValidRow := ⟨0, [], [], false, false, false⟩

/-- Concrete upload content for the step-chain scenarios (one data row). -/
def c1Content : Str := S "NOME;RA;ESCOLA;SERIE;TURMA\nJOAO;1;E;S;T"

/-- The frontend mapping for the five required columns. -/
def c1Map : List (Str × Str) :=
  [(S "nome_coluna", S "NOME"), (S "ra_coluna", S "RA"),
   (S "instituicao_coluna", S "ESCOLA"), (S "serie_coluna", S "SERIE"),
   (S "turma_coluna", S "TURMA")]

/-- The session id step 1 allocates at `t = 0` for `a.csv`. -/
def c1Sid : Str := S "import_0_a.csv"

/-- The session store after step 1. -/
def c1S1 : Sessions := (step1_upload_validacao 0 (S "a.csv") c1Content 10 none []).2

/-- The session store after step 2. -/
def c1S2 : Sessions := (step2_validar_mapeamento c1S1 c1Sid c1Map none).2

/-- The session store after step 3 (demo mode: no MySQL connection). -/
def c1S3 : Sessions := (step3_validar_detectar_conflitos c1S2 c1Sid none none).2

/-- A second upload with the same name in the same second, different data. -/
def c5ContentB : Str := S "NOME;RA;ESCOLA;SERIE;TURMA\nMARIA;2;E;S;T"

/-- A one-institution store for the import scenarios. -/
def c10Db : RealDB := ⟨[(S "E", 1)], [(S "S", 2)], [((S "T", 2, 1), 3)], [], [], [], 10, 20, 30⟩

/-- Upload content with a mapped but EMPTY `SENHA` column. -/
def c10Content : Str := S "NOME;RA;ESCOLA;SERIE;TURMA;SENHA\nJOAO;1;E;S;T;"

/-- The step-2 mapping including the password column. -/
def c10Map : List (Str × Str) := c1Map ++ [(S "senha_coluna", S "SENHA")]

/-- Sessions after step 1 → step 2 → step 3 (against the real store). -/
def c10S3 : Sessions :=
  (step3_validar_detectar_conflitos
    (step2_validar_mapeamento
      (step1_upload_validacao 0 (S "a.csv") c10Content 10 none []).2
      c1Sid c10Map none).2
    c1Sid none (some c10Db)).2

/-- A valid row whose data has NO `senha` key at all. -/
def c10Row : ValidRow :=
  ⟨0, [(fNome, S "JOAO"), (fRa, S "1"), (fEscola, S "E"), (fSerie, S "S"), (fTurma, S "T")],
    [], false, false, false⟩

/-! ## Association-list lemmas -/

theorem lookupA_cons {κ α : Type} [DecidableEq κ] (p : κ × α) (rest : List (κ × α)) (k : κ) :
    lookupA (p :: rest) k = if p.1 = k then some p.2 else lookupA rest k := by
  by_cases h : p.1 = k <;> simp [lookupA, List.find?_cons, h]

theorem lookupA_mapReplace {κ α : Type} [DecidableEq κ] (l : List (κ × α)) (k k' : κ) (v : α) :
    lookupA (l.map (fun p => if p.1 = k then (k, v) else p)) k' =
      if k' = k then (lookupA l k).map (fun _ => v) else lookupA l k' := by
  induction l with
  | nil => by_cases h : k' = k <;> simp [lookupA, h]
  | cons p rest ih =>
    by_cases hp : p.1 = k <;> by_cases hk : k' = k
    · subst hk
      simp [List.map_cons, if_pos hp, lookupA_cons, hp]
    · have hk2 : ¬ k = k' := fun e => hk e.symm
      simp [List.map_cons, if_pos hp, lookupA_cons, hk2, ih, hk, hp]
    · subst hk
      simp [List.map_cons, if_neg hp, lookupA_cons, hp, ih]
    · by_cases hpk : p.1 = k'
      · simp [List.map_cons, if_neg hp, lookupA_cons, hpk, hk]
      · simp [List.map_cons, if_neg hp, lookupA_cons, hpk, hk, ih]

theorem lookupA_append {κ α : Type} [DecidableEq κ] (l1 l2 : List (κ × α)) (k : κ) :
    lookupA (l1 ++ l2) k = (lookupA l1 k).or (lookupA l2 k) := by
  simp only [lookupA, List.find?_append]
  cases List.find? (fun p => decide (p.1 = k)) l1 <;> simp

theorem lookupA_insertA {κ α : Type} [DecidableEq κ] (l : List (κ × α)) (k k' : κ) (v : α) :
    lookupA (insertA l k v) k' = if k' = k then some v else lookupA l k' := by
  unfold insertA
  by_cases h : (lookupA l k).isSome
  · rw [if_pos h, lookupA_mapReplace]
    by_cases hk : k' = k
    · rw [if_pos hk, if_pos hk]
      cases hq : lookupA l k
      · rw [hq] at h
        simp at h
      · simp
    · rw [if_neg hk, if_neg hk]
  · rw [if_neg h, lookupA_append]
    by_cases hk : k' = k
    · subst hk
      cases hq : lookupA l k'
      · simp [lookupA, List.find?_cons]
      · rw [hq] at h
        simp at h
    · have hk2 : ¬ k = k' := fun e => hk e.symm
      simp [lookupA, List.find?_cons, hk2, hk]

/-! ## Decimal rendering lemmas -/

theorem digitChar10_toNat (d : Nat) (h : d < 10) : (digitChar10 d).toNat = 48 + d := by
  revert h
  revert d
  decide

theorem decValue_append_digit (s : Str) (c : Char) :
    decValue (s ++ [c]) = decValue s * 10 + (c.toNat - 48) := by
  simp [decValue, List.foldl_append]

theorem decValue_toDecAux (fuel n : Nat) (h : n ≤ fuel) :
    decValue (toDecAux fuel n) = n := by
  induction fuel generalizing n with
  | zero =>
    interval_cases n
    simp [toDecAux, decValue]
  | succ fuel ih =>
    by_cases hn : n = 0
    · simp [toDecAux, hn, decValue]
    · rw [toDecAux, if_neg hn, decValue_append_digit,
        ih (n / 10) (by omega), digitChar10_toNat (n % 10) (Nat.mod_lt _ (by omega))]
      omega

theorem decValue_natToChars (n : Nat) : decValue (natToChars n) = n := by
  by_cases h : n = 0
  · simp [natToChars, h, decValue]
  · rw [natToChars, if_neg h, decValue_toDecAux n n le_rfl]

theorem natToChars_injective (a b : Nat) (h : natToChars a = natToChars b) : a = b := by
  have := decValue_natToChars a
  rw [h, decValue_natToChars b] at this
  omega

theorem toDecAux_no_underscore (fuel : Nat) :
    ∀ (n : Nat) (c : Char), c ∈ toDecAux fuel n → c.toNat ≠ 95 := by
  induction fuel with
  | zero =>
    intro n c hc
    simp [toDecAux] at hc
  | succ fuel ih =>
    intro n c hc
    by_cases hn : n = 0
    · simp [toDecAux, hn] at hc
    · rw [toDecAux, if_neg hn] at hc
      rcases List.mem_append.mp hc with h1 | h2
      · exact ih _ _ h1
      · have hce : c = digitChar10 (n % 10) := by simpa using h2
        subst hce
        have := digitChar10_toNat (n % 10) (Nat.mod_lt _ (by omega))
        omega

theorem natToChars_no_underscore (n : Nat) (c : Char) (hc : c ∈ natToChars n) :
    c ≠ '_' := by
  intro he
  subst he
  by_cases h : n = 0
  · rw [natToChars, if_pos h] at hc
    simp only [List.mem_singleton] at hc
    exact absurd (congrArg Char.toNat hc) (by decide)
  · rw [natToChars, if_neg h] at hc
    exact toDecAux_no_underscore n n '_' hc (by decide)

/-- Splitting a list at a separator absent from both prefixes is unique. -/
theorem underscore_split {a1 a2 b1 b2 : Str}
    (h1 : ∀ c ∈ a1, c ≠ '_') (h2 : ∀ c ∈ a2, c ≠ '_')
    (he : a1 ++ '_' :: b1 = a2 ++ '_' :: b2) : a1 = a2 ∧ b1 = b2 := by
  induction a1 generalizing a2 with
  | nil =>
    cases a2 with
    | nil => simpa using he
    | cons d a2' =>
      simp only [List.nil_append, List.cons_append, List.cons.injEq] at he
      exact absurd he.1.symm (h2 d (by simp))
  | cons c a1' ih =>
    cases a2 with
    | nil =>
      simp only [List.cons_append, List.nil_append, List.cons.injEq] at he
      exact absurd he.1 (h1 c (by simp))
    | cons d a2' =>
      simp only [List.cons_append, List.cons.injEq] at he
      obtain ⟨rfl, he'⟩ := he
      obtain ⟨e1, e2⟩ := ih (fun x hx => h1 x (by simp [hx])) (fun x hx => h2 x (by simp [hx])) he'
      exact ⟨by rw [e1], e2⟩

/-! ## Levenshtein symmetry -/

theorem levM_symm (s1 s2 : Str) : ∀ i j, levM s1 s2 i j = levM s2 s1 j i := by
  intro i
  induction i with
  | zero =>
    intro j
    cases j with
    | zero => simp [levM]
    | succ j => simp [levM]
  | succ i ih =>
    intro j
    induction j with
    | zero => simp [levM]
    | succ j ihj =>
      rw [levM, levM, ih (j + 1), ihj, ih j]
      have hc : (if s1.getD i ' ' = s2.getD j ' ' then 0 else 1) =
          (if s2.getD j ' ' = s1.getD i ' ' then 0 else 1) := by
        by_cases h : s1.getD i ' ' = s2.getD j ' '
        · rw [if_pos h, if_pos h.symm]
        · rw [if_neg h, if_neg (fun e => h e.symm)]
      rw [hc]
      omega

/-- C3 (counterexample): the claim asserts `calculate_similarity(a, a) = 1.0`
for every string `a`, but on the empty string the function returns `0.0`
(the empty-argument guard precedes the equality test). -/
theorem C3_counterexample : ¬ (calculate_similarity [] [] = 1) := by decide

/-- C3 (amended): `calculate_similarity(a, a) = 1.0` for every non-empty
string `a`; the function is symmetric in its two arguments; and
`calculate_similarity("", "x") = 0.0`. -/
theorem C3_theorem :
    (∀ a : Str, a ≠ [] → calculate_similarity a a = 1) ∧
    (∀ a b : Str, calculate_similarity a b = calculate_similarity b a) ∧
    calculate_similarity [] (S "x") = 0 := by
  refine ⟨?_, ?_, by decide⟩
  · intro a ha
    simp [calculate_similarity, ha]
  · intro a b
    by_cases h1 : a = [] ∨ b = []
    · rw [calculate_similarity, calculate_similarity, if_pos h1, if_pos (Or.symm h1)]
    · rw [calculate_similarity, calculate_similarity, if_neg h1,
        if_neg (fun h => h1 (Or.symm h))]
      by_cases h2 : a.map pyLower = b.map pyLower
      · rw [if_pos h2, if_pos h2.symm]
      · rw [if_neg h2, if_neg (fun e : b.map pyLower = a.map pyLower => h2 e.symm)]
        by_cases h3 : (a.map pyLower).length = 0 ∨ (b.map pyLower).length = 0
        · rw [if_pos h3,
            if_pos (Or.symm h3 :
              (b.map pyLower).length = 0 ∨ (a.map pyLower).length = 0)]
        · rw [if_neg h3,
            if_neg (fun h : (b.map pyLower).length = 0 ∨ (a.map pyLower).length = 0 =>
              h3 (Or.symm h))]
          rw [levM_symm, Nat.max_comm]

/-- C3 (witness): the amended claim instantiated at the non-empty string
`"x"`. -/
theorem C3_witness : calculate_similarity (S "x") (S "x") = 1 :=
  C3_theorem.1 (S "x") (by decide)

/-- C4 (counterexample): the multiplication sign `×` (U+00D7) is no
letter, digit or space, yet `has_special_characters` accepts it — the
regex class `À-ÿ` spans the whole block U+00C0–U+00FF, operators
included — so the claimed equivalence fails on the one-character string
`"×"`. -/
theorem C4_counterexample :
    ¬ (has_special_characters [Char.ofNat 215] = true ↔
        ∃ c ∈ [Char.ofNat 215], claimAllowedChar c = false) := by
  decide

/-- C4 (amended): for every non-empty string `t`,
`has_special_characters(t)` is true iff `t` contains a character outside
the class actually allowed by the code: ASCII letters, digits, whitespace,
and the full Latin-1 block U+00C0–U+00FF. -/
theorem C4_theorem (t : Str) (h : t ≠ []) :
    has_special_characters t = true ↔ ∃ c ∈ t, allowedCharHSC c = false := by
  rw [has_special_characters, if_neg h]
  simp [List.all_eq_true]

/-- C4 (witness): the amended claim instantiated at `"@"` (where both
sides hold: `@` is disallowed). -/
theorem C4_witness :
    has_special_characters ['@'] = true ↔ ∃ c ∈ ['@'], allowedCharHSC c = false :=
  C4_theorem ['@'] (by decide)

/-! ## `detect_duplicates` characterisation -/

theorem lookupA_appendIdx (l : List (List Str × List Nat)) (k k' : List Str) (i : Nat) :
    lookupA (appendIdx l k i) k' =
      if k' = k then (lookupA l k).map (· ++ [i]) else lookupA l k' := by
  induction l with
  | nil => by_cases h : k' = k <;> simp [lookupA, appendIdx, h]
  | cons p rest ih =>
    by_cases hp : p.1 = k <;> by_cases hk : k' = k
    · subst hk
      simp [appendIdx, List.map_cons, if_pos hp, lookupA_cons, hp]
    · have hk2 : ¬ k = k' := fun e => hk e.symm
      simp [appendIdx, List.map_cons, if_pos hp, lookupA_cons, hk2, hk, hp] at ih ⊢
      simpa [appendIdx] using ih
    · subst hk
      simp [appendIdx, List.map_cons, if_neg hp, lookupA_cons, hp] at ih ⊢
      simpa [appendIdx] using ih
    · by_cases hpk : p.1 = k'
      · simp [appendIdx, List.map_cons, if_neg hp, lookupA_cons, hpk, hk]
      · simp [appendIdx, List.map_cons, if_neg hp, lookupA_cons, hpk, hk] at ih ⊢
        simpa [appendIdx] using ih

theorem ddGo_lookup (key_fields : List Str) :
    ∀ (rest : List (List (Str × Str))) (i : Nat)
      (seen : List (List Str × Nat)) (dups : List (List Str × List Nat))
      (pre : List Str → List Nat),
      (∀ k, lookupA seen k = (pre k).head?) →
      (∀ k, lookupA dups k = if 2 ≤ (pre k).length then some (pre k) else none) →
      ∀ k, lookupA (ddGo key_fields i seen dups rest) k =
        if 2 ≤ (pre k ++ keyIdxs key_fields k i rest).length
        then some (pre k ++ keyIdxs key_fields k i rest) else none := by
  intro rest
  induction rest with
  | nil =>
    intro i seen dups pre hseen hdups k
    simp only [ddGo, keyIdxs, List.append_nil]
    exact hdups k
  | cons row rest ih =>
    intro i seen dups pre hseen hdups k
    have hkey : ∀ k', keyIdxs key_fields k' i (row :: rest) =
        (if rowKeyDD key_fields row = k' then [i] else []) ++
          keyIdxs key_fields k' (i + 1) rest := by
      intro k'
      rfl
    set k0 := rowKeyDD key_fields row with hk0
    have hpre' : ∀ k', pre k' ++ keyIdxs key_fields k' i (row :: rest) =
        (pre k' ++ (if k' = k0 then [i] else [])) ++ keyIdxs key_fields k' (i + 1) rest := by
      intro k'
      rw [hkey, List.append_assoc]
      by_cases h : k' = k0
      · rw [if_pos h, if_pos h.symm]
      · rw [if_neg h, if_neg (fun e => h e.symm)]
    rw [hpre' k]
    cases hs : lookupA seen k0 with
    | some j =>
      have hhead := hseen k0
      rw [hs] at hhead
      cases hpk : pre k0 with
      | nil =>
        rw [hpk] at hhead
        simp at hhead
      | cons x t =>
        rw [hpk] at hhead
        simp only [List.head?_cons] at hhead
        have hseen' : ∀ k', lookupA seen k' =
            (pre k' ++ (if k' = k0 then [i] else [])).head? := by
          intro k'
          by_cases h : k' = k0
          · rw [h, hseen k0, hpk]
            simp
          · rw [if_neg h, List.append_nil, hseen k']
        cases hd : lookupA dups k0 with
        | some g =>
          have hdups' : ∀ k', lookupA (appendIdx dups k0 i) k' =
              if 2 ≤ (pre k' ++ (if k' = k0 then [i] else [])).length
              then some (pre k' ++ (if k' = k0 then [i] else [])) else none := by
            intro k'
            rw [lookupA_appendIdx]
            by_cases h : k' = k0
            · rw [h]
              simp only [eq_self_iff_true, if_true]
              have h2 := hdups k0
              rw [hd] at h2
              by_cases hl : 2 ≤ (pre k0).length
              · rw [if_pos hl] at h2
                have h3 : 2 ≤ (pre k0 ++ [i]).length := by
                  simp only [List.length_append]
                  omega
                rw [hd, if_pos h3]
                simp only [Option.map_some']
                rw [Option.some_inj.mp h2]
              · rw [if_neg hl] at h2
                exact absurd h2 (by simp)
            · rw [if_neg h, if_neg h, List.append_nil, hdups k']
          rw [show ddGo key_fields i seen dups (row :: rest) =
              ddGo key_fields (i + 1) seen (appendIdx dups k0 i) rest from by
            rw [ddGo, ← hk0, hs, hd]]
          exact ih (i + 1) seen (appendIdx dups k0 i) _ hseen' hdups' k
        | none =>
          have h2 := hdups k0
          rw [hd] at h2
          have hlen : ¬ 2 ≤ (pre k0).length := by
            by_contra hc
            rw [if_pos hc] at h2
            simp at h2
          have ht : t = [] := by
            rw [hpk] at hlen
            simp only [List.length_cons] at hlen
            exact List.eq_nil_of_length_eq_zero (by omega)
          have hdups' : ∀ k', lookupA (insertA dups k0 [j, i]) k' =
              if 2 ≤ (pre k' ++ (if k' = k0 then [i] else [])).length
              then some (pre k' ++ (if k' = k0 then [i] else [])) else none := by
            intro k'
            rw [lookupA_insertA]
            by_cases h : k' = k0
            · rw [h]
              simp only [eq_self_iff_true, if_true]
              rw [hpk, ht, ← Option.some_inj.mp hhead]
              simp
            · rw [if_neg h, if_neg h, List.append_nil, hdups k']
          rw [show ddGo key_fields i seen dups (row :: rest) =
              ddGo key_fields (i + 1) seen (insertA dups k0 [j, i]) rest from by
            rw [ddGo, ← hk0, hs, hd]]
          exact ih (i + 1) seen (insertA dups k0 [j, i]) _ hseen' hdups' k
    | none =>
      have hhead := hseen k0
      rw [hs] at hhead
      have hpk : pre k0 = [] := by
        cases hq : pre k0 with
        | nil => rfl
        | cons x t =>
          rw [hq] at hhead
          simp at hhead
      have hseen' : ∀ k', lookupA (insertA seen k0 i) k' =
          (pre k' ++ (if k' = k0 then [i] else [])).head? := by
        intro k'
        rw [lookupA_insertA]
        by_cases h : k' = k0
        · rw [h]
          simp only [eq_self_iff_true, if_true]
          rw [hpk]
          simp
        · rw [if_neg h, if_neg h, List.append_nil, hseen k']
      have hdups' : ∀ k', lookupA dups k' =
          if 2 ≤ (pre k' ++ (if k' = k0 then [i] else [])).length
          then some (pre k' ++ (if k' = k0 then [i] else [])) else none := by
        intro k'
        by_cases h : k' = k0
        · rw [h]
          simp only [eq_self_iff_true, if_true]
          rw [hdups k0, hpk]
          simp
        · rw [if_neg h, List.append_nil, hdups k']
      rw [show ddGo key_fields i seen dups (row :: rest) =
          ddGo key_fields (i + 1) (insertA seen k0 i) dups rest from by
        rw [ddGo, ← hk0, hs]]
      exact ih (i + 1) (insertA seen k0 i) dups _ hseen' hdups' k

/-- C7 (confirmed): `detect_duplicates` groups row indices by the
composite key (each field trimmed and uppercased): a key is reported iff
at least two rows carry it, and its group is exactly the ascending list of
all indices carrying it (so a first and only occurrence is never
reported, while second and later occurrences are, grouped with the first);
and on the three rows `[{A,1,X},{A,1,X},{A,2,X}]` keyed on all three
fields the result is exactly one group, referencing indices 0 and 1. -/
theorem C7_theorem :
    (∀ (rows : List (List (Str × Str))) (key_fields : List Str) (k : List Str),
      lookupA (detect_duplicates rows key_fields) k =
        if 2 ≤ (keyIdxs key_fields k 0 rows).length
        then some (keyIdxs key_fields k 0 rows) else none) ∧
    detect_duplicates
      [[(S "F1", S "A"), (S "F2", S "1"), (S "F3", S "X")],
       [(S "F1", S "A"), (S "F2", S "1"), (S "F3", S "X")],
       [(S "F1", S "A"), (S "F2", S "2"), (S "F3", S "X")]]
      [S "F1", S "F2", S "F3"] = [([S "A", S "1", S "X"], [0, 1])] := by
  constructor
  · intro rows key_fields k
    have h := ddGo_lookup key_fields rows 0 [] [] (fun _ => [])
      (fun k' => by simp [lookupA]) (fun k' => by simp [lookupA]) k
    simpa [detect_duplicates] using h
  · decide

/-! ## `parse_csv_basic` properties -/

theorem csvDelim_semicolon (l : Str) :
    csvDelim l = ';' ↔ l.count ',' < l.count ';' := by
  unfold csvDelim
  by_cases hc : ';' ∈ l ∧ l.count ',' < l.count ';'
  · rw [if_pos hc]
    exact iff_of_true rfl hc.2
  · rw [if_neg hc]
    constructor
    · intro he
      exact absurd he (by decide)
    · intro hlt
      exact absurd ⟨List.count_pos_iff.mp (by omega), hlt⟩ hc

theorem parseCsvLine_length (d : Char) (n : Nat) (line : Str) :
    (parseCsvLine d n line).length = n := by
  unfold parseCsvLine
  simp only [List.length_take, List.length_append, List.length_replicate]
  omega

/-- C8 (confirmed): `parse_csv_basic` on `"A;B;C\n1;2;3"` yields headers
`["A","B","C"]` and the single data row `["1","2","3"]`; it succeeds iff
the content has at least two non-blank lines; the delimiter is the
semicolon exactly when semicolons outnumber commas in the header line;
headers are the split header line, trimmed and uppercased; and every data
row is padded/truncated to exactly the header width. -/
theorem C8_theorem :
    parse_csv_basic (S "A;B;C\n1;2;3") =
      ⟨true, [], [S "A", S "B", S "C"], [[S "1", S "2", S "3"]], 1⟩ ∧
    (∀ content : Str, (parse_csv_basic content).success = true ↔
      2 ≤ (nonBlankLines content).length) ∧
    (∀ (content l0 l1 : Str) (rest : List Str),
      nonBlankLines content = l0 :: l1 :: rest →
      (csvDelim l0 = ';' ↔ l0.count ',' < l0.count ';') ∧
      (parse_csv_basic content).headers =
        (splitOnCharL (csvDelim l0) l0).map (fun h => (pyStrip h).map upperChar) ∧
      ∀ row ∈ (parse_csv_basic content).data_rows,
        row.length = (parse_csv_basic content).headers.length) := by
  refine ⟨by decide, ?_, ?_⟩
  · intro content
    unfold parse_csv_basic
    rcases hnb : nonBlankLines content with _ | ⟨l0, _ | ⟨l1, rest⟩⟩
    · simp
    · simp
    · simp
  · intro content l0 l1 rest hnb
    unfold parse_csv_basic
    rw [hnb]
    refine ⟨csvDelim_semicolon l0, rfl, ?_⟩
    intro row hrow
    simp only [List.mem_map] at hrow
    obtain ⟨line, _, hline⟩ := hrow
    rw [← hline, parseCsvLine_length]

/-- C8 (witness): the general clauses instantiated on the concrete upload
`"A;B;C\n1;2;3"`. -/
theorem C8_witness :
    (csvDelim (S "A;B;C") = ';' ↔ (S "A;B;C").count ',' < (S "A;B;C").count ';') ∧
    (parse_csv_basic (S "A;B;C\n1;2;3")).headers =
      (splitOnCharL (csvDelim (S "A;B;C")) (S "A;B;C")).map
        (fun h => (pyStrip h).map upperChar) ∧
    ∀ row ∈ (parse_csv_basic (S "A;B;C\n1;2;3")).data_rows,
      row.length = (parse_csv_basic (S "A;B;C\n1;2;3")).headers.length :=
  C8_theorem.2.2 (S "A;B;C\n1;2;3") (S "A;B;C") (S "1;2;3") [] (by decide)

/-! ## Whitespace splitting and `normalize_text` -/

theorem splitWsAux_word_append (w : Str) :
    ∀ (s acc : Str), (∀ c ∈ w, pyIsSpace c = false) →
      splitWsAux (w ++ s) acc = splitWsAux s (w.reverse ++ acc) := by
  induction w with
  | nil =>
    intro s acc _
    simp
  | cons c w ih =>
    intro s acc hw
    have hc : pyIsSpace c = false := hw c (by simp)
    rw [List.cons_append, splitWsAux, if_neg (by simp [hc]), ih s (c :: acc)
      (fun x hx => hw x (by simp [hx]))]
    simp [List.append_assoc]

theorem splitWsAux_all_space (t : Str) :
    ∀ acc : Str, (∀ c ∈ t, pyIsSpace c = true) →
      splitWsAux t acc = if acc = [] then [] else [acc.reverse] := by
  induction t with
  | nil =>
    intro acc _
    rfl
  | cons c t ih =>
    intro acc ht
    have hc : pyIsSpace c = true := ht c (by simp)
    rw [splitWsAux, if_pos hc, ih [] (fun x hx => ht x (by simp [hx]))]
    by_cases ha : acc = []
    · rw [if_pos ha, if_pos ha, if_pos rfl]
    · rw [if_neg ha, if_neg ha, if_pos rfl]

theorem splitWsAux_append_space (s : Str) :
    ∀ (t acc : Str), (∀ c ∈ t, pyIsSpace c = true) →
      splitWsAux (s ++ t) acc = splitWsAux s acc := by
  induction s with
  | nil =>
    intro t acc ht
    rw [List.nil_append, splitWsAux_all_space t acc ht, splitWsAux]
  | cons c s ih =>
    intro t acc ht
    rw [List.cons_append, splitWsAux, splitWsAux]
    by_cases hc : pyIsSpace c
    · rw [if_pos hc, if_pos hc]
      by_cases ha : acc = []
      · rw [if_pos ha, if_pos ha, ih t [] ht]
      · rw [if_neg ha, if_neg ha, ih t [] ht]
    · rw [if_neg hc, if_neg hc, ih t (c :: acc) ht]

theorem splitWsAux_dropWhile (s : Str) :
    splitWsAux (s.dropWhile pyIsSpace) [] = splitWsAux s [] := by
  induction s with
  | nil => rfl
  | cons c s ih =>
    rw [List.dropWhile_cons]
    by_cases hc : pyIsSpace c
    · rw [if_pos hc, ih, splitWsAux, if_pos hc, if_pos rfl]
    · rw [if_neg hc]

theorem pySplitWs_pyStrip (s : Str) : pySplitWs (pyStrip s) = pySplitWs s := by
  have hdecomp : s = stripRight s ++ (s.reverse.takeWhile pyIsSpace).reverse := by
    conv_lhs => rw [← List.reverse_reverse s,
      ← List.takeWhile_append_dropWhile (p := pyIsSpace) (l := s.reverse)]
    rw [List.reverse_append]
    rfl
  have htail : ∀ c ∈ (s.reverse.takeWhile pyIsSpace).reverse, pyIsSpace c = true := by
    intro c hc
    exact List.mem_takeWhile_imp (List.mem_reverse.mp hc)
  unfold pySplitWs pyStrip stripLeft
  rw [splitWsAux_dropWhile]
  conv_rhs => rw [hdecomp]
  rw [splitWsAux_append_space (stripRight s) _ [] htail]

theorem splitWsAux_words (s : Str) :
    ∀ acc : Str, (∀ c ∈ acc, pyIsSpace c = false) →
      ∀ w ∈ splitWsAux s acc, w ≠ [] ∧ ∀ c ∈ w, pyIsSpace c = false := by
  induction s with
  | nil =>
    intro acc hacc w hw
    rw [splitWsAux] at hw
    by_cases ha : acc = []
    · rw [if_pos ha] at hw
      simp at hw
    · rw [if_neg ha] at hw
      simp only [List.mem_singleton] at hw
      subst hw
      exact ⟨by simpa using ha, fun c hc => hacc c (List.mem_reverse.mp hc)⟩
  | cons c s ih =>
    intro acc hacc w hw
    rw [splitWsAux] at hw
    by_cases hc : pyIsSpace c
    · rw [if_pos hc] at hw
      by_cases ha : acc = []
      · rw [if_pos ha] at hw
        exact ih [] (by simp) w hw
      · rw [if_neg ha] at hw
        rcases List.mem_cons.mp hw with h1 | h2
        · subst h1
          exact ⟨by simpa using ha, fun x hx => hacc x (List.mem_reverse.mp hx)⟩
        · exact ih [] (by simp) w h2
    · rw [if_neg hc] at hw
      exact ih (c :: acc)
        (fun x hx => by
          rcases List.mem_cons.mp hx with h1 | h2
          · subst h1
            simpa using hc
          · exact hacc x h2) w hw

theorem splitWsAux_mem (s : Str) :
    ∀ (acc w : Str) (c : Char), w ∈ splitWsAux s acc → c ∈ w → c ∈ s ∨ c ∈ acc := by
  induction s with
  | nil =>
    intro acc w c hw hc
    rw [splitWsAux] at hw
    by_cases ha : acc = []
    · rw [if_pos ha] at hw
      simp at hw
    · rw [if_neg ha] at hw
      simp only [List.mem_singleton] at hw
      subst hw
      exact Or.inr (List.mem_reverse.mp hc)
  | cons a s ih =>
    intro acc w c hw hc
    rw [splitWsAux] at hw
    by_cases hs : pyIsSpace a
    · rw [if_pos hs] at hw
      by_cases ha : acc = []
      · rw [if_pos ha] at hw
        rcases ih [] w c hw hc with h | h
        · exact Or.inl (by simp [h])
        · simp at h
      · rw [if_neg ha] at hw
        rcases List.mem_cons.mp hw with h1 | h2
        · subst h1
          exact Or.inr (List.mem_reverse.mp hc)
        · rcases ih [] w c h2 hc with h | h
          · exact Or.inl (by simp [h])
          · simp at h
    · rw [if_neg hs] at hw
      rcases ih (a :: acc) w c hw hc with h | h
      · exact Or.inl (by simp [h])
      · rcases List.mem_cons.mp h with h1 | h2
        · exact Or.inl (by simp [h1])
        · exact Or.inr h2

theorem joinSpace_single (w : Str) : joinSpace [w] = w := rfl

theorem joinSpace_cons_cons (w v : Str) (ws : List Str) :
    joinSpace (w :: v :: ws) = w ++ ' ' :: joinSpace (v :: ws) := rfl

theorem joinSpace_mem (ws : List Str) (c : Char) (hc : c ∈ joinSpace ws) :
    (∃ w ∈ ws, c ∈ w) ∨ c = ' ' := by
  induction ws with
  | nil => simp [joinSpace] at hc
  | cons w ws ih =>
    cases ws with
    | nil =>
      rw [joinSpace_single] at hc
      exact Or.inl ⟨w, by simp, hc⟩
    | cons v ws' =>
      rw [joinSpace_cons_cons] at hc
      rcases List.mem_append.mp hc with h | h
      · exact Or.inl ⟨w, by simp, h⟩
      · rcases List.mem_cons.mp h with h1 | h2
        · exact Or.inr h1
        · rcases ih h2 with ⟨u, hu, hcu⟩ | he
          · exact Or.inl ⟨u, by simp [List.mem_cons.mp hu], hcu⟩
          · exact Or.inr he

theorem joinSpace_ne_nil (ws : List Str) (hne : ws ≠ [])
    (hw : ∀ w ∈ ws, w ≠ []) : joinSpace ws ≠ [] := by
  cases ws with
  | nil => exact absurd rfl hne
  | cons w ws =>
    cases ws with
    | nil =>
      rw [joinSpace_single]
      exact hw w (by simp)
    | cons v ws' =>
      rw [joinSpace_cons_cons]
      intro he
      exact hw w (by simp) (List.append_eq_nil.mp he).1

theorem joinSpace_head (ws : List Str)
    (hw : ∀ w ∈ ws, w ≠ [] ∧ ∀ c ∈ w, pyIsSpace c = false) :
    ∀ c, (joinSpace ws).head? = some c → pyIsSpace c = false := by
  cases ws with
  | nil =>
    intro c hc
    simp [joinSpace] at hc
  | cons w ws =>
    have hwne : w ≠ [] := (hw w (by simp)).1
    intro c hc
    have hhead : (joinSpace (w :: ws)).head? = w.head? := by
      cases ws with
      | nil => rw [joinSpace_single]
      | cons v ws' =>
        rw [joinSpace_cons_cons]
        cases w with
        | nil => exact absurd rfl hwne
        | cons a w' => simp
    rw [hhead] at hc
    cases w with
    | nil => exact absurd rfl hwne
    | cons a w' =>
      simp only [List.head?_cons, Option.some_inj] at hc
      rw [← hc]
      exact (hw (a :: w') (by simp)).2 a (by simp)

theorem joinSpace_revHead (ws : List Str)
    (hw : ∀ w ∈ ws, w ≠ [] ∧ ∀ c ∈ w, pyIsSpace c = false) :
    ∀ c, (joinSpace ws).reverse.head? = some c → pyIsSpace c = false := by
  induction ws with
  | nil =>
    intro c hc
    simp [joinSpace] at hc
  | cons w ws ih =>
    cases ws with
    | nil =>
      intro c hc
      rw [joinSpace_single] at hc
      have : c ∈ w.reverse := by
        cases hr : w.reverse with
        | nil => rw [hr] at hc; simp at hc
        | cons a t =>
          rw [hr] at hc
          simp only [List.head?_cons, Option.some_inj] at hc
          simp [hr, ← hc]
      exact (hw w (by simp)).2 c (List.mem_reverse.mp this)
    | cons v ws' =>
      intro c hc
      rw [joinSpace_cons_cons, List.reverse_append] at hc
      have hne : (joinSpace (v :: ws')).reverse ≠ [] := by
        simpa using joinSpace_ne_nil (v :: ws') (by simp)
          (fun u hu => (hw u (by simp [List.mem_cons.mp hu])).1)
      rw [List.reverse_cons] at hc
      cases hr : (joinSpace (v :: ws')).reverse with
      | nil => exact absurd hr hne
      | cons a t =>
        rw [hr] at hc
        simp only [List.append_assoc, List.cons_append, List.head?_cons,
          Option.some_inj] at hc
        rw [← hc]
        exact ih (fun u hu => hw u (by simp [List.mem_cons.mp hu])) a
          (by rw [hr]; simp)

theorem stripLeft_eq_self (l : Str)
    (h : ∀ c, l.head? = some c → pyIsSpace c = false) : stripLeft l = l := by
  cases l with
  | nil => rfl
  | cons a t =>
    unfold stripLeft
    rw [List.dropWhile_cons, if_neg (by simp [h a rfl])]

theorem stripRight_eq_self (l : Str)
    (h : ∀ c, l.reverse.head? = some c → pyIsSpace c = false) : stripRight l = l := by
  unfold stripRight
  cases hr : l.reverse with
  | nil =>
    have : l = [] := by simpa using congrArg List.reverse hr
    simp [this]
  | cons a t =>
    rw [List.dropWhile_cons, if_neg (by simp [h a (by rw [hr]; rfl)])]
    rw [← hr, List.reverse_reverse]

theorem pyStrip_joinSpace (ws : List Str)
    (hw : ∀ w ∈ ws, w ≠ [] ∧ ∀ c ∈ w, pyIsSpace c = false) :
    pyStrip (joinSpace ws) = joinSpace ws := by
  unfold pyStrip
  rw [stripRight_eq_self _ (joinSpace_revHead ws hw),
    stripLeft_eq_self _ (joinSpace_head ws hw)]

theorem pySplitWs_joinSpace (ws : List Str)
    (hw : ∀ w ∈ ws, w ≠ [] ∧ ∀ c ∈ w, pyIsSpace c = false) :
    pySplitWs (joinSpace ws) = ws := by
  induction ws with
  | nil => rfl
  | cons w ws ih =>
    have hwne : w ≠ [] := (hw w (by simp)).1
    have hwsp : ∀ c ∈ w, pyIsSpace c = false := (hw w (by simp)).2
    cases ws with
    | nil =>
      unfold pySplitWs
      rw [joinSpace_single, show w = w ++ [] from by simp,
        splitWsAux_word_append w [] [] (by simpa using hwsp), List.append_nil]
      rw [splitWsAux, if_neg (by simpa using hwne)]
      simp
    | cons v ws' =>
      unfold pySplitWs
      rw [joinSpace_cons_cons, splitWsAux_word_append w (' ' :: joinSpace (v :: ws')) [] hwsp,
        List.append_nil]
      rw [splitWsAux, if_pos (by decide), if_neg (by simpa using hwne)]
      rw [List.reverse_reverse]
      have := ih (fun u hu => hw u (by simp [List.mem_cons.mp hu]))
      unfold pySplitWs at this
      rw [this]

theorem collapseWs_idem (s : Str) : collapseWs (collapseWs s) = collapseWs s := by
  unfold collapseWs
  rw [pySplitWs_joinSpace (pySplitWs s) (fun w hw => splitWsAux_words s [] (by simp) w hw)]

theorem mem_pyStrip (s : Str) (c : Char) (hc : c ∈ pyStrip s) : c ∈ s := by
  unfold pyStrip stripLeft stripRight at hc
  have h1 := List.Sublist.mem hc (List.dropWhile_sublist pyIsSpace)
  rw [List.mem_reverse] at h1
  have h2 := List.Sublist.mem h1 (List.dropWhile_sublist pyIsSpace)
  rw [List.mem_reverse] at h2
  exact h2

theorem upperChar_sigma (c : Char) (h : sigmaChar c) : upperChar c = c := by
  have hb : c.toNat ≤ 90 := by
    rcases h with h | h | h
    · omega
    · omega
    · subst h
      decide
  unfold upperChar
  rw [if_neg (by omega), if_neg (by omega), if_neg (by omega)]

theorem nfdBaseCode_eq_none (n : Nat) (h : n ≤ 90) : nfdBaseCode n = none := by
  unfold nfdBaseCode
  rw [List.find?_eq_none.mpr]
  · rfl
  · intro p hp
    have h192 : 192 ≤ p.1.1 := by
      revert hp
      revert p
      decide
    simp only [decide_eq_true_eq, not_and]
    omega

theorem nfdStripMn_sigma (c : Char) (h : sigmaChar c) : nfdStripMn c = [c] := by
  have hb : c.toNat ≤ 90 := by
    rcases h with h | h | h
    · omega
    · omega
    · subst h
      decide
  unfold nfdStripMn
  rw [if_neg (by omega), nfdBaseCode_eq_none c.toNat hb]

theorem nfdStripMn_mem (d c : Char) (hc : c ∈ nfdStripMn d) :
    c = d ∨ pyIsSpace c = false := by
  unfold nfdStripMn at hc
  split at hc
  · simp at hc
  · cases hb : nfdBaseCode d.toNat with
    | none =>
      rw [hb] at hc
      exact Or.inl (List.mem_singleton.mp hc)
    | some b =>
      rw [hb] at hc
      right
      rw [List.mem_singleton.mp hc]
      unfold nfdBaseCode at hb
      cases hf : nfdPairs.find? (fun p => decide (p.1.1 ≤ d.toNat ∧ d.toNat ≤ p.1.2)) with
      | none =>
        rw [hf] at hb
        simp at hb
      | some p =>
        rw [hf] at hb
        simp only [Option.map_some', Option.some_inj] at hb
        have hp := List.mem_of_find?_eq_some hf
        have hcodes : ∀ q ∈ nfdPairs, pyIsSpace (Char.ofNat q.2) = false := by
          decide
        rw [← hb]
        exact hcodes p hp

theorem keepChar_sigma (c : Char) (h : sigmaChar c) : keepChar c = true := by
  rw [keepChar, decide_eq_true_iff]
  rcases h with h | h | h
  · exact Or.inl h
  · exact Or.inr (Or.inl h)
  · subst h
    exact Or.inr (Or.inr (by decide))

theorem collapseWs_mem (s : Str) (c : Char) (hc : c ∈ collapseWs s) :
    c ∈ s ∨ c = ' ' := by
  rcases joinSpace_mem _ c hc with ⟨w, hw, hcw⟩ | he
  · rcases splitWsAux_mem s [] w c hw hcw with h | h
    · exact Or.inl h
    · simp at h
  · exact Or.inr he

theorem normalize_text_chars (s : Str) : ∀ c ∈ normalize_text s, sigmaChar c := by
  intro c hc
  simp only [normalize_text] at hc
  have h5 := mem_pyStrip _ _ hc
  have hkeep := (List.mem_filter.mp h5).2
  have h4 := (List.mem_filter.mp h5).1
  rw [List.mem_flatten] at h4
  obtain ⟨l, hl, hcl⟩ := h4
  rw [List.mem_map] at hl
  obtain ⟨d, hd, rfl⟩ := hl
  rw [keepChar, decide_eq_true_iff] at hkeep
  rcases hkeep with h | h | h
  · exact Or.inl h
  · exact Or.inr (Or.inl h)
  · right
    right
    rcases nfdStripMn_mem d c hcl with rfl | hns
    · rcases joinSpace_mem _ c hd with ⟨w, hw, hcw⟩ | he
      · have hword := (splitWsAux_words _ [] (by simp) w hw).2 c hcw
        rw [h] at hword
        exact absurd hword (by simp)
      · exact he
    · rw [h] at hns
      exact absurd hns (by simp)

theorem collapseWs_pyStrip (s : Str) : collapseWs (pyStrip s) = collapseWs s := by
  unfold collapseWs
  rw [pySplitWs_pyStrip]

theorem normalize_text_sigma (s : Str) (h : ∀ c ∈ s, sigmaChar c) :
    normalize_text s = collapseWs s := by
  have hmapid : ∀ l : Str, (∀ c ∈ l, upperChar c = c) → l.map upperChar = l := by
    intro l hl
    induction l with
    | nil => rfl
    | cons a t ih => simp [hl a (by simp), ih (fun x hx => hl x (by simp [hx]))]
  have hflat : ∀ l : Str, (l.map (fun c => [c])).flatten = l := by
    intro l
    induction l <;> simp [*]
  have h1 : ∀ c ∈ pyStrip s, sigmaChar c := fun c hc => h c (mem_pyStrip s c hc)
  have h2 : (pyStrip s).map upperChar = pyStrip s :=
    hmapid _ (fun c hc => upperChar_sigma c (h1 c hc))
  have h4 : ∀ c ∈ collapseWs s, sigmaChar c := by
    intro c hc
    rcases collapseWs_mem s c hc with hcs | rfl
    · exact h c hcs
    · exact Or.inr (Or.inr rfl)
  have h5 : (collapseWs s).map nfdStripMn = (collapseWs s).map (fun c => [c]) :=
    List.map_congr_left (fun c hc => nfdStripMn_sigma c (h4 c hc))
  have h7 : (collapseWs s).filter keepChar = collapseWs s :=
    List.filter_eq_self.mpr (fun c hc => keepChar_sigma c (h4 c hc))
  have h8 : pyStrip (collapseWs s) = collapseWs s := by
    unfold collapseWs
    exact pyStrip_joinSpace _ (fun w hw => splitWsAux_words s [] (by simp) w hw)
  simp only [normalize_text]
  rw [h2, collapseWs_pyStrip, h5, hflat, h7, h8]

/-- C9 (counterexample): `normalize_text` is not idempotent.  On
`"A ! B"` the first pass deletes the `!` after whitespace collapsing,
leaving the double space `"A  B"`; the second pass collapses it to
`"A B"`. -/
theorem C9_counterexample :
    ¬ (normalize_text (normalize_text (S "A ! B")) = normalize_text (S "A ! B")) := by
  decide

/-- C9 (amended): the double application of `normalize_text` is
idempotent: for every string `x`,
`normalize_text (normalize_text (normalize_text x)) = normalize_text (normalize_text x)`
(a single application need not be a fixed point, because deleting
disallowed characters can create new whitespace runs after the collapsing
step has already run). -/
theorem C9_theorem (x : Str) :
    normalize_text (normalize_text (normalize_text x)) =
      normalize_text (normalize_text x) := by
  have h2 : normalize_text (normalize_text x) = collapseWs (normalize_text x) :=
    normalize_text_sigma _ (normalize_text_chars x)
  have h3 : normalize_text (normalize_text (normalize_text x)) =
      collapseWs (normalize_text (normalize_text x)) :=
    normalize_text_sigma _ (normalize_text_chars (normalize_text x))
  rw [h3, h2, collapseWs_idem]

/-! ## Branch equations for step 3's loop body -/

theorem simUpd_valid_rows (st : V3State) (an : RowAnalysis) (i : Nat) :
    (simUpd st an i).valid_rows = st.valid_rows := by
  unfold simUpd
  split <;> rfl

theorem simUpd_invalid_rows (st : V3State) (an : RowAnalysis) (i : Nat) :
    (simUpd st an i).invalid_rows = st.invalid_rows := by
  unfold simUpd
  split <;> rfl

theorem simUpd_duplicates (st : V3State) (an : RowAnalysis) (i : Nat) :
    (simUpd st an i).duplicates = st.duplicates := by
  unfold simUpd
  split <;> rfl

theorem simUpd_rowsHash (st : V3State) (an : RowAnalysis) (i : Nat) :
    (simUpd st an i).rowsHash = st.rowsHash := by
  unfold simUpd
  split <;> rfl

theorem simUpd_ras (st : V3State) (an : RowAnalysis) (i : Nat) :
    (simUpd st an i).rasEncontrados = st.rasEncontrados := by
  unfold simUpd
  split <;> rfl

theorem processRow_dup_fields (db : DBHandle) (fidx : List (Str × Nat)) (st : V3State)
    (i : Nat) (row : List Str) (j : Nat)
    (h : lookupA st.rowsHash (rowKeyOf fidx row) = some j) :
    (processRow db fidx st i row).valid_rows = st.valid_rows ∧
    (processRow db fidx st i row).invalid_rows = st.invalid_rows ∧
    (processRow db fidx st i row).duplicates =
      st.duplicates ++ [(⟨i, j, (extractRow fidx row).data⟩ : DupEntry)] ∧
    (processRow db fidx st i row).rowsHash = st.rowsHash ∧
    (processRow db fidx st i row).rasEncontrados = st.rasEncontrados := by
  simp only [processRow, h]
  exact ⟨trivial, trivial, trivial, trivial, trivial⟩

theorem processRow_valid_fields (db : DBHandle) (fidx : List (Str × Nat)) (st : V3State)
    (i : Nat) (row : List Str)
    (h : lookupA st.rowsHash (rowKeyOf fidx row) = none)
    (hv : ((extractRow fidx row).ok &&
      decide (dbErrsOf db (extractRow fidx row) = [])) = true) :
    (processRow db fidx st i row).valid_rows = st.valid_rows ++
      [(⟨i, (extractRow fidx row).data,
        rowConflictsOf db st.rasEncontrados (extractRow fidx row) i,
        false, false, false⟩ : ValidRow)] ∧
    (processRow db fidx st i row).invalid_rows = st.invalid_rows ∧
    (processRow db fidx st i row).duplicates = st.duplicates ∧
    (processRow db fidx st i row).rowsHash =
      insertA st.rowsHash (rowKeyOf fidx row) i ∧
    (processRow db fidx st i row).rasEncontrados =
      rasAfter st.rasEncontrados (extractRow fidx row) i := by
  simp only [processRow, h, hv, if_true, simUpd_valid_rows, simUpd_invalid_rows,
    simUpd_duplicates, simUpd_rowsHash, simUpd_ras]
  exact ⟨trivial, trivial, trivial, trivial, trivial⟩

theorem processRow_invalid_fields (db : DBHandle) (fidx : List (Str × Nat)) (st : V3State)
    (i : Nat) (row : List Str)
    (h : lookupA st.rowsHash (rowKeyOf fidx row) = none)
    (hv : ((extractRow fidx row).ok &&
      decide (dbErrsOf db (extractRow fidx row) = [])) = false) :
    (processRow db fidx st i row).valid_rows = st.valid_rows ∧
    (processRow db fidx st i row).invalid_rows = st.invalid_rows ++
      [(⟨i, (extractRow fidx row).data,
        (extractRow fidx row).errors ++ dbErrsOf db (extractRow fidx row)⟩ : InvalidRow)] ∧
    (processRow db fidx st i row).duplicates = st.duplicates ∧
    (processRow db fidx st i row).rowsHash =
      insertA st.rowsHash (rowKeyOf fidx row) i ∧
    (processRow db fidx st i row).rasEncontrados = st.rasEncontrados := by
  simp only [processRow, h, hv, if_false, Bool.false_eq_true, simUpd_valid_rows,
    simUpd_invalid_rows, simUpd_duplicates, simUpd_rowsHash, simUpd_ras]
  exact ⟨trivial, trivial, trivial, trivial, trivial⟩

/-! ## The full-row duplicate exclusion of step 3 (claim C6) -/

theorem firstIdx_some (kf : Nat → Str) :
    ∀ (n : Nat) (k : Str) (j : Nat), firstIdx kf n k = some j → j < n ∧ kf j = k := by
  intro n
  induction n with
  | zero =>
    intro k j h
    simp [firstIdx] at h
  | succ n ih =>
    intro k j h
    rw [firstIdx] at h
    cases hf : firstIdx kf n k with
    | some j' =>
      rw [hf] at h
      simp only [Option.some_inj] at h
      obtain ⟨hlt, hkj⟩ := ih k j' hf
      rw [← h]
      exact ⟨by omega, hkj⟩
    | none =>
      rw [hf] at h
      by_cases hk : kf n = k
      · rw [if_pos hk] at h
        simp only [Option.some_inj] at h
        subst h
        exact ⟨by omega, hk⟩
      · rw [if_neg hk] at h
        simp at h

theorem firstIdx_none (kf : Nat → Str) :
    ∀ (n : Nat) (k : Str), firstIdx kf n k = none → ∀ j, j < n → kf j ≠ k := by
  intro n
  induction n with
  | zero =>
    intro k _ j hj
    omega
  | succ n ih =>
    intro k h j hj
    rw [firstIdx] at h
    cases hf : firstIdx kf n k with
    | some j' =>
      rw [hf] at h
      simp at h
    | none =>
      rw [hf] at h
      by_cases hk : kf n = k
      · rw [if_pos hk] at h
        simp at h
      · by_cases hjn : j = n
        · subst hjn
          exact hk
        · exact ih k hf j (by omega)

theorem firstIdx_succ_ne (kf : Nat → Str) (n : Nat) (k : Str) (h : kf n ≠ k) :
    firstIdx kf (n + 1) k = firstIdx kf n k := by
  cases hf : firstIdx kf n k <;> simp [firstIdx, hf, h]

theorem firstIdx_succ_of_isSome (kf : Nat → Str) (n : Nat) (k : Str)
    (h : (firstIdx kf n k).isSome) : firstIdx kf (n + 1) k = firstIdx kf n k := by
  cases hf : firstIdx kf n k with
  | some j => simp [firstIdx, hf]
  | none =>
    rw [hf] at h
    simp at h

theorem firstIdx_succ_hit (kf : Nat → Str) (n : Nat) (k : Str)
    (h : firstIdx kf n k = none) (hk : kf n = k) :
    firstIdx kf (n + 1) k = some n := by
  simp [firstIdx, h, hk]

theorem step3Go_dup_inv (db : DBHandle) (fidx : List (Str × Nat)) :
    ∀ (rs : List (List Str)) (n : Nat) (st : V3State) (kf : Nat → Str),
      (∀ m, m < rs.length → kf (n + m) = rowKeyOf fidx (rs.getD m [])) →
      (∀ k, lookupA st.rowsHash k = firstIdx kf n k) →
      (∀ i, i < n → (∃ j, j < i ∧ kf j = kf i) →
        ∃ e ∈ st.duplicates, e.row_index = i) →
      (∀ e ∈ st.valid_rows, ¬ ∃ j, j < e.row_index ∧ kf j = kf e.row_index) →
      (∀ e ∈ st.invalid_rows, ¬ ∃ j, j < e.row_index ∧ kf j = kf e.row_index) →
      ((∀ i, i < n + rs.length → (∃ j, j < i ∧ kf j = kf i) →
        ∃ e ∈ (step3Go db fidx n st rs).duplicates, e.row_index = i) ∧
       (∀ e ∈ (step3Go db fidx n st rs).valid_rows,
         ¬ ∃ j, j < e.row_index ∧ kf j = kf e.row_index) ∧
       (∀ e ∈ (step3Go db fidx n st rs).invalid_rows,
         ¬ ∃ j, j < e.row_index ∧ kf j = kf e.row_index)) := by
  intro rs
  induction rs with
  | nil =>
    intro n st kf _ _ hB hC hD
    simp only [step3Go, List.length_nil, Nat.add_zero]
    exact ⟨hB, hC, hD⟩
  | cons r rs ih =>
    intro n st kf hkm hA hB hC hD
    have hk0 : kf n = rowKeyOf fidx r := by
      have := hkm 0 (by simp)
      simpa using this
    have hkm' : ∀ m, m < rs.length → kf (n + 1 + m) = rowKeyOf fidx (rs.getD m []) := by
      intro m hm
      have := hkm (m + 1) (by simp; omega)
      rw [show n + (m + 1) = n + 1 + m from by omega] at this
      simpa using this
    have hgo : step3Go db fidx n st (r :: rs) =
        step3Go db fidx (n + 1) (processRow db fidx st n r) rs := rfl
    have hlen : n + (r :: rs).length = (n + 1) + rs.length := by
      simp only [List.length_cons]
      omega
    rw [hgo, hlen]
    cases hlk : lookupA st.rowsHash (rowKeyOf fidx r) with
    | some j =>
      obtain ⟨f1, f2, f3, f4, f5⟩ := processRow_dup_fields db fidx st n r j hlk
      have hsome : (firstIdx kf n (rowKeyOf fidx r)).isSome = true := by
        rw [← hA, hlk]
        rfl
      refine ih (n + 1) (processRow db fidx st n r) kf hkm' ?_ ?_ ?_ ?_
      · intro k
        rw [f4]
        by_cases hk : kf n = k
        · rw [← hk]
          rw [firstIdx_succ_of_isSome kf n _ (by rw [hk0]; exact hsome)]
          exact hA _
        · rw [firstIdx_succ_ne kf n k hk]
          exact hA k
      · intro i hi hex
        rw [f3]
        by_cases hin : i = n
        · subst hin
          exact ⟨⟨i, j, (extractRow fidx r).data⟩, by simp, rfl⟩
        · obtain ⟨e, he, hei⟩ := hB i (by omega) hex
          exact ⟨e, by simp [he], hei⟩
      · intro e he
        rw [f1] at he
        exact hC e he
      · intro e he
        rw [f2] at he
        exact hD e he
    | none =>
      have hfn : firstIdx kf n (kf n) = none := by
        rw [← hA, hk0]
        exact hlk
      have hnd : ¬ ∃ j, j < n ∧ kf j = kf n := by
        rintro ⟨j, hj, he⟩
        exact firstIdx_none kf n (kf n) hfn j hj he
      have hAstep : ∀ rh, rh = insertA st.rowsHash (rowKeyOf fidx r) n →
          ∀ k, lookupA rh k = firstIdx kf (n + 1) k := by
        rintro rh rfl k
        rw [lookupA_insertA]
        by_cases hk : k = rowKeyOf fidx r
        · rw [if_pos hk, hk]
          rw [firstIdx_succ_hit kf n _ (by rw [← hk0]; exact hfn) hk0]
        · rw [if_neg hk, hA k, firstIdx_succ_ne kf n k (by rw [hk0]; exact fun e => hk e.symm)]
      cases hv : ((extractRow fidx r).ok && decide (dbErrsOf db (extractRow fidx r) = [])) with
      | true =>
        obtain ⟨f1, f2, f3, f4, f5⟩ := processRow_valid_fields db fidx st n r hlk hv
        refine ih (n + 1) (processRow db fidx st n r) kf hkm' (hAstep _ f4) ?_ ?_ ?_
        · intro i hi hex
          rw [f3]
          by_cases hin : i = n
          · subst hin
            exact absurd hex hnd
          · exact hB i (by omega) hex
        · intro e he
          rw [f1] at he
          rcases List.mem_append.mp he with h1 | h2
          · exact hC e h1
          · have : e.row_index = n := by
              simp only [List.mem_singleton] at h2
              rw [h2]
            rw [this]
            exact hnd
        · intro e he
          rw [f2] at he
          exact hD e he
      | false =>
        obtain ⟨f1, f2, f3, f4, f5⟩ := processRow_invalid_fields db fidx st n r hlk hv
        refine ih (n + 1) (processRow db fidx st n r) kf hkm' (hAstep _ f4) ?_ ?_ ?_
        · intro i hi hex
          rw [f3]
          by_cases hin : i = n
          · subst hin
            exact absurd hex hnd
          · exact hB i (by omega) hex
        · intro e he
          rw [f1] at he
          exact hC e he
        · intro e he
          rw [f2] at he
          rcases List.mem_append.mp he with h1 | h2
          · exact hD e h1
          · have : e.row_index = n := by
              simp only [List.mem_singleton] at h2
              rw [h2]
            rw [this]
            exact hnd

/-- C6 (confirmed): in step 3, a row whose composite identity key
(`nome|ra|escola|serie|turma` from the mapped data) repeats an earlier
row's key is recorded under `duplicates` and appears in neither the
valid-rows list nor the invalid-rows list of the validation outcome. -/
theorem C6_theorem (db : DBHandle) (fidx : List (Str × Nat)) (rows : List (List Str))
    (i : Nat) (hi : i < rows.length)
    (hdup : ∃ j, j < i ∧ rowKeyAt fidx rows j = rowKeyAt fidx rows i) :
    (∃ e ∈ (step3Run db fidx rows).duplicates, e.row_index = i) ∧
    (∀ e ∈ (step3Run db fidx rows).valid_rows, e.row_index ≠ i) ∧
    (∀ e ∈ (step3Run db fidx rows).invalid_rows, e.row_index ≠ i) := by
  have master := step3Go_dup_inv db fidx rows 0 emptyV3 (fun j => rowKeyAt fidx rows j)
    (fun m hm => by simp [rowKeyAt])
    (fun k => by simp [emptyV3, lookupA, firstIdx])
    (fun i hi _ => by omega)
    (fun e he => by simp [emptyV3] at he)
    (fun e he => by simp [emptyV3] at he)
  rw [show step3Go db fidx 0 emptyV3 rows = step3Run db fidx rows from rfl] at master
  refine ⟨master.1 i (by simpa using hi) hdup, ?_, ?_⟩
  · intro e he hei
    exact master.2.1 e he (hei ▸ hdup)
  · intro e he hei
    exact master.2.2 e he (hei ▸ hdup)

/-- C6 (witness): on two identical uploaded rows, the second is reported
as a duplicate of the first and excluded from the valid and invalid
lists. -/
theorem C6_witness :
    (∃ e ∈ (step3Run none
      [(fNome, 0), (fRa, 1), (fEscola, 2), (fSerie, 3), (fTurma, 4)]
      [[S "JOAO", S "1", S "E", S "S", S "T"], [S "JOAO", S "1", S "E", S "S", S "T"]]).duplicates,
      e.row_index = 1) ∧
    (∀ e ∈ (step3Run none
      [(fNome, 0), (fRa, 1), (fEscola, 2), (fSerie, 3), (fTurma, 4)]
      [[S "JOAO", S "1", S "E", S "S", S "T"], [S "JOAO", S "1", S "E", S "S", S "T"]]).valid_rows,
      e.row_index ≠ 1) ∧
    (∀ e ∈ (step3Run none
      [(fNome, 0), (fRa, 1), (fEscola, 2), (fSerie, 3), (fTurma, 4)]
      [[S "JOAO", S "1", S "E", S "S", S "T"], [S "JOAO", S "1", S "E", S "S", S "T"]]).invalid_rows,
      e.row_index ≠ 1) :=
  C6_theorem none
    [(fNome, 0), (fRa, 1), (fEscola, 2), (fSerie, 3), (fTurma, 4)]
    [[S "JOAO", S "1", S "E", S "S", S "T"], [S "JOAO", S "1", S "E", S "S", S "T"]]
    1 (by decide) ⟨0, by decide, by decide⟩

/-! ## The in-file duplicate-RA conflict of step 3 (claim C2) -/

theorem mem_iff_getD {α : Type} (l : List α) (d x : α) :
    x ∈ l ↔ ∃ n, n < l.length ∧ l.getD n d = x := by
  rw [List.mem_iff_getElem]
  constructor
  · rintro ⟨n, h, rfl⟩
    exact ⟨n, h, List.getD_eq_getElem l d h⟩
  · rintro ⟨n, h, he⟩
    exact ⟨n, h, by rw [← he, List.getD_eq_getElem l d h]⟩

theorem getD_append_len {α : Type} (l : List α) (e d : α) :
    (l ++ [e]).getD l.length d = e := by
  rw [List.getD_append_right l [e] d l.length le_rfl]
  simp

theorem raOfE_mk (an : RowAnalysis) (i : Nat) (cf : List ConflictInfo) :
    raOfE ⟨i, an.data, cf, false, false, false⟩ = raOfAn an := rfl

theorem hasRaDup_rowConflictsOf (db : DBHandle) (ras : List (Str × Nat))
    (an : RowAnalysis) (i : Nat) :
    hasRaDupConflict ⟨i, an.data, rowConflictsOf db ras an i, false, false, false⟩ ↔
      raOfAn an ≠ [] ∧ (lookupA ras (raOfAn an)).isSome = true := by
  have hsecond : ∀ c ∈
      (match
        (if raOfAn an ≠ [] then
          (if step3DemoMode db then none
           else db.bind (fun d => findAlunoByMatricula d (raOfAn an)))
        else none) with
      | some q => [alunoDupConflict (raOfAn an) q]
      | none => ([] : List ConflictInfo)),
      c.ctype ≠ S "ra_duplicado_arquivo" := by
    intro c hc
    cases hm :
      (if raOfAn an ≠ [] then
        (if step3DemoMode db then none
         else db.bind (fun d => findAlunoByMatricula d (raOfAn an)))
      else none) with
    | none =>
      rw [hm] at hc
      simp at hc
    | some q =>
      rw [hm] at hc
      simp only [List.mem_singleton] at hc
      rw [hc]
      rw [show (alunoDupConflict (raOfAn an) q).ctype = S "aluno_duplicado" from rfl]
      decide
  unfold hasRaDupConflict rowConflictsOf
  by_cases hra : raOfAn an = []
  · rw [if_neg (by simpa using hra)]
    simp only [List.nil_append]
    constructor
    · rintro ⟨c, hc, hct⟩
      exact absurd hct (hsecond c hc)
    · rintro ⟨h, _⟩
      exact absurd hra h
  · rw [if_pos hra]
    cases hl : lookupA ras (raOfAn an) with
    | some j =>
      simp only [hl]
      constructor
      · intro _
        exact ⟨hra, rfl⟩
      · intro _
        exact ⟨raDupConflict (raOfAn an) j i, by simp, rfl⟩
    | none =>
      simp only [hl]
      constructor
      · rintro ⟨c, hc, hct⟩
        rw [List.nil_append] at hc
        exact absurd hct (hsecond c hc)
      · rintro ⟨_, hs⟩
        simp at hs

theorem lookupA_rasAfter (ras : List (Str × Nat)) (an : RowAnalysis) (i : Nat) (q : Str) :
    lookupA (rasAfter ras an i) q =
      if q = raOfAn an ∧ raOfAn an ≠ [] ∧ lookupA ras (raOfAn an) = none
      then some i else lookupA ras q := by
  unfold rasAfter
  split
  · next hra =>
      split
      · next j heq =>
          rw [if_neg (by rintro ⟨_, _, h⟩; rw [heq] at h; simp at h)]
      · next heq =>
          rw [lookupA_insertA]
          by_cases hq : q = raOfAn an
          · rw [if_pos hq, if_pos ⟨hq, hra, heq⟩]
          · rw [if_neg hq, if_neg (by rintro ⟨h, _, _⟩; exact hq h)]
  · next hra =>
      have hra' : raOfAn an = [] := by simpa using hra
      rw [if_neg (by rintro ⟨_, h, _⟩; exact h hra')]

theorem find?_append_ra (V : List ValidRow) (e : ValidRow) (q : Str) :
    ((V ++ [e]).find? (fun x => decide (raOfE x = q))).map (·.row_index) =
      if (V.find? (fun x => decide (raOfE x = q))).isSome
      then (V.find? (fun x => decide (raOfE x = q))).map (·.row_index)
      else (if raOfE e = q then some e.row_index else none) := by
  rw [List.find?_append]
  cases hf : V.find? (fun x => decide (raOfE x = q)) with
  | some x => simp
  | none =>
    simp only [Option.isSome_none, Bool.false_eq_true, if_false, Option.none_or]
    by_cases hq : raOfE e = q
    · rw [List.find?_cons_of_pos _ (by simpa using hq)]
      simp [if_pos hq]
    · rw [List.find?_cons_of_neg _ (by simpa using hq)]
      simp [if_neg hq]

theorem step3Go_ra_inv (db : DBHandle) (fidx : List (Str × Nat)) :
    ∀ (rs : List (List Str)) (n : Nat) (st : V3State),
      lookupA st.rasEncontrados [] = none →
      (∀ r, r ≠ [] → lookupA st.rasEncontrados r =
        (st.valid_rows.find? (fun e => decide (raOfE e = r))).map (·.row_index)) →
      (∀ n1, n1 < st.valid_rows.length →
        (hasRaDupConflict (st.valid_rows.getD n1 dummyVR) ↔
          raOfE (st.valid_rows.getD n1 dummyVR) ≠ [] ∧
          ∃ n2, n2 < n1 ∧
            raOfE (st.valid_rows.getD n2 dummyVR) =
              raOfE (st.valid_rows.getD n1 dummyVR))) →
      (∀ n1, n1 < st.valid_rows.length →
        (st.valid_rows.getD n1 dummyVR).row_index < n) →
      (∀ n1 n2, n1 < n2 → n2 < st.valid_rows.length →
        (st.valid_rows.getD n1 dummyVR).row_index <
          (st.valid_rows.getD n2 dummyVR).row_index) →
      ((∀ n1, n1 < (step3Go db fidx n st rs).valid_rows.length →
        (hasRaDupConflict ((step3Go db fidx n st rs).valid_rows.getD n1 dummyVR) ↔
          raOfE ((step3Go db fidx n st rs).valid_rows.getD n1 dummyVR) ≠ [] ∧
          ∃ n2, n2 < n1 ∧
            raOfE ((step3Go db fidx n st rs).valid_rows.getD n2 dummyVR) =
              raOfE ((step3Go db fidx n st rs).valid_rows.getD n1 dummyVR))) ∧
       (∀ n1 n2, n1 < n2 → n2 < (step3Go db fidx n st rs).valid_rows.length →
        ((step3Go db fidx n st rs).valid_rows.getD n1 dummyVR).row_index <
          ((step3Go db fidx n st rs).valid_rows.getD n2 dummyVR).row_index)) := by
  intro rs
  induction rs with
  | nil =>
    intro n st _ _ hconf _ hmono
    exact ⟨hconf, hmono⟩
  | cons r rs ih =>
    intro n st hnil hras hconf hbound hmono
    have hgo : step3Go db fidx n st (r :: rs) =
        step3Go db fidx (n + 1) (processRow db fidx st n r) rs := rfl
    rw [hgo]
    cases hlk : lookupA st.rowsHash (rowKeyOf fidx r) with
    | some j =>
      obtain ⟨f1, f2, f3, f4, f5⟩ := processRow_dup_fields db fidx st n r j hlk
      refine ih (n + 1) (processRow db fidx st n r) (by rw [f5]; exact hnil)
        (fun q hq => by rw [f5, f1]; exact hras q hq)
        (fun n1 h1 => by rw [f1] at h1 ⊢; exact hconf n1 h1)
        (fun n1 h1 => by rw [f1] at h1 ⊢; exact Nat.lt_succ_of_lt (hbound n1 h1))
        (fun n1 n2 h12 h2 => by rw [f1] at h2 ⊢; exact hmono n1 n2 h12 h2)
    | none =>
      cases hv : ((extractRow fidx r).ok && decide (dbErrsOf db (extractRow fidx r) = [])) with
      | false =>
        obtain ⟨f1, f2, f3, f4, f5⟩ := processRow_invalid_fields db fidx st n r hlk hv
        refine ih (n + 1) (processRow db fidx st n r) (by rw [f5]; exact hnil)
          (fun q hq => by rw [f5, f1]; exact hras q hq)
          (fun n1 h1 => by rw [f1] at h1 ⊢; exact hconf n1 h1)
          (fun n1 h1 => by rw [f1] at h1 ⊢; exact Nat.lt_succ_of_lt (hbound n1 h1))
          (fun n1 n2 h12 h2 => by rw [f1] at h2 ⊢; exact hmono n1 n2 h12 h2)
      | true =>
        obtain ⟨f1, f2, f3, f4, f5⟩ := processRow_valid_fields db fidx st n r hlk hv
        set an := extractRow fidx r with han
        set V := st.valid_rows with hV
        set e : ValidRow :=
          ⟨n, an.data, rowConflictsOf db st.rasEncontrados an n, false, false, false⟩ with he
        have hraE : raOfE e = raOfAn an := rfl
        have hgetapp : ∀ n1, n1 < V.length →
            (V ++ [e]).getD n1 dummyVR = V.getD n1 dummyVR := by
          intro n1 h1
          exact List.getD_append V [e] dummyVR n1 h1
        have hgetlast : (V ++ [e]).getD V.length dummyVR = e := getD_append_len V e dummyVR
        have hlen' : (V ++ [e]).length = V.length + 1 := by simp
        -- the new conflict-iff invariant
        have hconf' : ∀ n1, n1 < (V ++ [e]).length →
            (hasRaDupConflict ((V ++ [e]).getD n1 dummyVR) ↔
              raOfE ((V ++ [e]).getD n1 dummyVR) ≠ [] ∧
              ∃ n2, n2 < n1 ∧
                raOfE ((V ++ [e]).getD n2 dummyVR) =
                  raOfE ((V ++ [e]).getD n1 dummyVR)) := by
          intro n1 h1
          rw [hlen'] at h1
          by_cases hlt : n1 < V.length
          · rw [hgetapp n1 hlt]
            constructor
            · intro hh
              obtain ⟨hne, n2, h2, he2⟩ := (hconf n1 hlt).mp hh
              exact ⟨hne, n2, h2, by rw [hgetapp n2 (by omega)]; exact he2⟩
            · rintro ⟨hne, n2, h2, he2⟩
              rw [hgetapp n2 (by omega)] at he2
              exact (hconf n1 hlt).mpr ⟨hne, n2, h2, he2⟩
          · have hn1 : n1 = V.length := by omega
            subst hn1
            rw [hgetlast]
            rw [he, hasRaDup_rowConflictsOf db st.rasEncontrados an n, ← he]
            constructor
            · rintro ⟨hne, hsome⟩
              refine ⟨by rw [hraE]; exact hne, ?_⟩
              rw [hras (raOfAn an) hne] at hsome
              cases hf : V.find? (fun x => decide (raOfE x = raOfAn an)) with
              | none =>
                rw [hf] at hsome
                simp at hsome
              | some x =>
                have hx := List.mem_of_find?_eq_some hf
                have hpx : raOfE x = raOfAn an := by
                  have := List.find?_some hf
                  simpa using this
                obtain ⟨n2, h2, he2⟩ := (mem_iff_getD V dummyVR x).mp hx
                exact ⟨n2, h2, by rw [hgetapp n2 h2, he2, hraE, hpx]⟩
            · rintro ⟨hne, n2, h2, he2⟩
              rw [hraE] at hne
              refine ⟨hne, ?_⟩
              rw [hras (raOfAn an) hne]
              rw [hgetapp n2 h2] at he2
              rw [hraE] at he2
              have : (V.find? (fun x => decide (raOfE x = raOfAn an))).isSome := by
                rw [List.find?_isSome]
                exact ⟨V.getD n2 dummyVR, (mem_iff_getD V dummyVR _).mpr ⟨n2, h2, rfl⟩,
                  by simpa using he2⟩
              cases hf : V.find? (fun x => decide (raOfE x = raOfAn an)) with
              | none =>
                rw [hf] at this
                simp at this
              | some x => rfl
        -- the new ras-cache invariant
        have hras' : (lookupA (rasAfter st.rasEncontrados an n) [] = none) ∧
            (∀ q, q ≠ [] → lookupA (rasAfter st.rasEncontrados an n) q =
              ((V ++ [e]).find? (fun x => decide (raOfE x = q))).map (·.row_index)) := by
          constructor
          · rw [lookupA_rasAfter]
            rw [if_neg (by rintro ⟨hq, hne, _⟩; exact hne hq.symm)]
            exact hnil
          · intro q hq
            rw [lookupA_rasAfter, find?_append_ra]
            by_cases hA : q = raOfAn an ∧ raOfAn an ≠ [] ∧
                lookupA st.rasEncontrados (raOfAn an) = none
            · obtain ⟨hqa, hne, hnone⟩ := hA
              rw [if_pos ⟨hqa, hne, hnone⟩]
              have hVn : V.find? (fun x => decide (raOfE x = q)) = none := by
                have hh := hras q hq
                rw [hqa, hnone] at hh
                cases hfv : V.find? (fun x => decide (raOfE x = raOfAn an)) with
                | none => rw [hqa]; exact hfv
                | some x =>
                  rw [hfv] at hh
                  simp at hh
              rw [hVn]
              simp only [Option.isSome_none, Bool.false_eq_true, if_false]
              rw [if_pos (by rw [hraE, hqa])]
            · rw [if_neg hA]
              cases hfv : V.find? (fun x => decide (raOfE x = q)) with
              | some x =>
                have hh := hras q hq
                rw [hfv] at hh
                simp only [Option.isSome_some, if_true]
                exact hh
              | none =>
                simp only [Option.isSome_none, Bool.false_eq_true, if_false]
                have hlq : lookupA st.rasEncontrados q = none := by
                  have hh := hras q hq
                  rw [hfv] at hh
                  simpa using hh
                rw [hlq]
                have hnee : ¬ raOfE e = q := by
                  intro hre
                  rw [hraE] at hre
                  exact hA ⟨hre.symm, by rw [hre]; exact hq, by rw [hre]; exact hlq⟩
                rw [if_neg hnee]
        refine ih (n + 1) (processRow db fidx st n r)
          (by rw [f5]; exact hras'.1)
          (fun q hq => by rw [f5, f1]; exact hras'.2 q hq)
          (fun n1 h1 => by rw [f1] at h1 ⊢; exact hconf' n1 h1)
          ?_ ?_
        · intro n1 h1
          rw [f1] at h1 ⊢
          rw [hlen'] at h1
          by_cases hlt : n1 < V.length
          · rw [hgetapp n1 hlt]
            exact Nat.lt_succ_of_lt (hbound n1 hlt)
          · have hn1 : n1 = V.length := by omega
            subst hn1
            rw [hgetlast]
            exact Nat.lt_succ_self n
        · intro n1 n2 h12 h2
          rw [f1] at h2 ⊢
          rw [hlen'] at h2
          by_cases hlt : n2 < V.length
          · rw [hgetapp n1 (by omega), hgetapp n2 hlt]
            exact hmono n1 n2 h12 hlt
          · have hn2 : n2 = V.length := by omega
            subst hn2
            rw [hgetapp n1 (by omega), hgetlast]
            exact hbound n1 (by omega)

/-- C2 (counterexample): the claim quantifies over every pair of uploaded
rows sharing a non-empty RA, but when the first occurrence is an invalid
row (here: empty `nome`) it never registers its RA, so the valid second
occurrence receives no `ra_duplicado_arquivo` conflict at all. -/
theorem C2_counterexample :
    getDA (extractRow [(fNome, 0), (fRa, 1), (fEscola, 2), (fSerie, 3), (fTurma, 4)]
      [[], S "1", S "E", S "S", S "T"]).data fRa [] = S "1" ∧
    getDA (extractRow [(fNome, 0), (fRa, 1), (fEscola, 2), (fSerie, 3), (fTurma, 4)]
      [S "JOAO", S "1", S "E", S "S", S "T"]).data fRa [] = S "1" ∧
    (step3Run none [(fNome, 0), (fRa, 1), (fEscola, 2), (fSerie, 3), (fTurma, 4)]
      [[[], S "1", S "E", S "S", S "T"], [S "JOAO", S "1", S "E", S "S", S "T"]]).valid_rows.map
        (fun e => (e.row_index, e.conflicts)) = [(1, [])] ∧
    (step3Run none [(fNome, 0), (fRa, 1), (fEscola, 2), (fSerie, 3), (fTurma, 4)]
      [[[], S "1", S "E", S "S", S "T"], [S "JOAO", S "1", S "E", S "S", S "T"]]).invalid_rows.map
        (fun e => e.row_index) = [0] := by
  decide

/-- C2 (amended): among the entries of step 3's valid-rows list, an entry
carries a `ra_duplicado_arquivo` conflict exactly when an earlier valid
entry carries the same non-empty RA (so the first valid occurrence never
does, second and later valid occurrences always do), and a conflicted row
still sits in the valid-rows list.  Rows dropped as full duplicates or
rejected as invalid never register their RA. -/
theorem C2_theorem (db : DBHandle) (fidx : List (Str × Nat)) (rows : List (List Str)) :
    ∀ e ∈ (step3Run db fidx rows).valid_rows,
      (hasRaDupConflict e ↔ raOfE e ≠ [] ∧
        ∃ e' ∈ (step3Run db fidx rows).valid_rows,
          e'.row_index < e.row_index ∧ raOfE e' = raOfE e) := by
  have master := step3Go_ra_inv db fidx rows 0 emptyV3
    (by simp [emptyV3, lookupA])
    (fun r hr => by simp [emptyV3, lookupA])
    (fun n1 h1 => by simp [emptyV3] at h1)
    (fun n1 h1 => by simp [emptyV3] at h1)
    (fun n1 n2 h12 h2 => by simp [emptyV3] at h2)
  obtain ⟨hconfF, hmonoF⟩ := master
  intro e he
  rw [show step3Run db fidx rows = step3Go db fidx 0 emptyV3 rows from rfl] at he ⊢
  obtain ⟨n1, h1, he1⟩ :=
    (mem_iff_getD (step3Go db fidx 0 emptyV3 rows).valid_rows dummyVR e).mp he
  constructor
  · intro hh
    obtain ⟨hne, n2, h12, he2⟩ := (hconfF n1 h1).mp (by rw [he1]; exact hh)
    refine ⟨by rw [← he1]; exact hne,
      (step3Go db fidx 0 emptyV3 rows).valid_rows.getD n2 dummyVR,
      (mem_iff_getD _ dummyVR _).mpr ⟨n2, by omega, rfl⟩, ?_, ?_⟩
    · rw [← he1]
      exact hmonoF n2 n1 h12 h1
    · rw [← he1]
      exact he2
  · rintro ⟨hne, e', he', hlt, hre⟩
    obtain ⟨n2, h2, he2'⟩ :=
      (mem_iff_getD (step3Go db fidx 0 emptyV3 rows).valid_rows dummyVR e').mp he'
    have hn21 : n2 < n1 := by
      by_contra hc
      push_neg at hc
      rcases Nat.lt_or_ge n1 n2 with hlt12 | hge
      · have := hmonoF n1 n2 hlt12 h2
        rw [he1, he2'] at this
        omega
      · have hn12 : n1 = n2 := by omega
        rw [← hn12] at he2'
        rw [he1] at he2'
        rw [he2'] at hlt
        omega
    have := (hconfF n1 h1).mpr
      ⟨by rw [he1]; exact hne, n2, hn21, by rw [he2', he1]; exact hre⟩
    rw [he1] at this
    exact this

/-- C2 (witness): the amended claim instantiated on a single valid row
(the first occurrence: no conflict, and no earlier row). -/
theorem C2_witness :
    hasRaDupConflict
      ⟨0, [(fNome, S "JOAO"), (fRa, S "1"), (fEscola, S "E"), (fSerie, S "S"),
        (fTurma, S "T")], [], false, false, false⟩ ↔
    raOfE ⟨0, [(fNome, S "JOAO"), (fRa, S "1"), (fEscola, S "E"), (fSerie, S "S"),
        (fTurma, S "T")], [], false, false, false⟩ ≠ [] ∧
    ∃ e' ∈ (step3Run none [(fNome, 0), (fRa, 1), (fEscola, 2), (fSerie, 3), (fTurma, 4)]
        [[S "JOAO", S "1", S "E", S "S", S "T"]]).valid_rows,
      e'.row_index < 0 ∧ raOfE e' = S "1" :=
  C2_theorem none [(fNome, 0), (fRa, 1), (fEscola, 2), (fSerie, 3), (fTurma, 4)]
    [[S "JOAO", S "1", S "E", S "S", S "T"]]
    ⟨0, [(fNome, S "JOAO"), (fRa, S "1"), (fEscola, S "E"), (fSerie, S "S"),
      (fTurma, S "T")], [], false, false, false⟩
    (by decide)

/-! ## The step field (claim C1) -/

/-- C1 (amended): every successful step-2 invocation stores step `2` and
every successful step-3 invocation stores step `3`, unconditionally — the
stored value is the index of the step that last completed, not a maximum,
so a successful re-invocation of step 2 after step 3 moves the stored step
backwards from 3 to 2. -/
theorem C1_theorem :
    (∀ (sessions : Sessions) (sid : Str) (mapping : List (Str × Str)) (dbn : Option Str),
      (step2_validar_mapeamento sessions sid mapping dbn).1.success = true →
      ((lookupA (step2_validar_mapeamento sessions sid mapping dbn).2 sid).map
        Session.step) = some 2) ∧
    (∀ (sessions : Sessions) (sid : Str) (dbn : Option Str) (db : DBHandle),
      (step3_validar_detectar_conflitos sessions sid dbn db).1.success = true →
      ((lookupA (step3_validar_detectar_conflitos sessions sid dbn db).2 sid).map
        Session.step) = some 3) := by
  constructor
  · intro sessions sid mapping dbn h
    unfold step2_validar_mapeamento at h ⊢
    split at h
    · simp at h
    · next sess heq =>
        simp only [] at h ⊢
        split at h
        · next hcond =>
            split
            · next hg =>
                simp only [lookupA_insertA]
                rw [if_pos trivial]
                rfl
            · next hg =>
                exact absurd hcond hg
        · next hcond =>
            simp at h
  · intro sessions sid dbn db h
    unfold step3_validar_detectar_conflitos at h ⊢
    split at h
    · simp at h
    · next sess heq =>
        simp only [] at h ⊢
        split at h
        · next hcond =>
            simp at h
        · next hcond =>
            split
            · next hg =>
                exact absurd hg hcond
            · next hg =>
                simp only [lookupA_insertA]
                rw [if_pos trivial]
                rfl

/-- C1 counterexample: after the successful chain step 1 → step 2 → step 3
the stored step is 3, yet a further successful invocation of step 2 on the
same session succeeds and lowers the stored step back to 2 — the field is
overwritten with the step number that last ran, not advanced monotonically. -/
theorem C1_counterexample :
    ((lookupA c1S3 c1Sid).map Session.step = some 3) ∧
    ((step2_validar_mapeamento c1S3 c1Sid c1Map none).1.success = true) ∧
    ((lookupA (step2_validar_mapeamento c1S3 c1Sid c1Map none).2 c1Sid).map Session.step =
      some 2) := by
  decide

/-- C1 witness: the amended theorem applied to the concrete chain — the
successful step-2 call stores step 2 and the successful step-3 call stores
step 3. -/
theorem C1_witness :
    ((lookupA (step2_validar_mapeamento c1S1 c1Sid c1Map none).2 c1Sid).map
      Session.step = some 2) ∧
    ((lookupA (step3_validar_detectar_conflitos c1S2 c1Sid none none).2 c1Sid).map
      Session.step = some 3) :=
  ⟨C1_theorem.1 c1S1 c1Sid c1Map none (by decide),
   C1_theorem.2 c1S2 c1Sid none none (by decide)⟩

/-! ## Session-id allocation (claim C5) -/

theorem step1_sid (t : Nat) (filename content : Str) (z : Nat) (dbn : Option Str)
    (sessions : Sessions)
    (h : (step1_upload_validacao t filename content z dbn sessions).1.success = true) :
    (step1_upload_validacao t filename content z dbn sessions).1.session_id =
      some (mkSessionId t filename) := by
  unfold step1_upload_validacao at h ⊢
  split at h
  · simp at h
  · next hc1 =>
      split at h
      · simp at h
      · next hc2 =>
          rw [if_neg hc1, if_neg hc2]
          simp only [] at h ⊢
          split at h
          · simp at h
          · next hc3 =>
              rw [if_neg hc3]

theorem mkSessionId_inj (t1 t2 : Nat) (f1 f2 : Str)
    (h : mkSessionId t1 f1 = mkSessionId t2 f2) : t1 = t2 ∧ f1 = f2 := by
  unfold mkSessionId at h
  simp only [List.append_assoc] at h
  have h2 : natToChars t1 ++ (S "_" ++ f1) = natToChars t2 ++ (S "_" ++ f2) :=
    List.append_cancel_left h
  have h3 : natToChars t1 ++ '_' :: f1 = natToChars t2 ++ '_' :: f2 := by
    simpa [S] using h2
  obtain ⟨hn, hf⟩ := underscore_split
    (fun c hc => natToChars_no_underscore t1 c hc)
    (fun c hc => natToChars_no_underscore t2 c hc) h3
  exact ⟨natToChars_injective t1 t2 hn, hf⟩

/-- C5 (amended): the session id of a successful upload is exactly
`"import_" ++ seconds ++ "_" ++ filename`, so two successful uploads get
the same id iff they happen in the same integral second with the same
filename — in which case the second `insertA` under that id overwrites the
first session (ids are unique per (second, filename), not per upload). -/
theorem C5_theorem :
    (∀ (t1 : Nat) (f1 c1 : Str) (z1 : Nat) (d1 : Option Str) (s1 : Sessions)
       (t2 : Nat) (f2 c2 : Str) (z2 : Nat) (d2 : Option Str) (s2 : Sessions),
      (step1_upload_validacao t1 f1 c1 z1 d1 s1).1.success = true →
      (step1_upload_validacao t2 f2 c2 z2 d2 s2).1.success = true →
      ((step1_upload_validacao t1 f1 c1 z1 d1 s1).1.session_id =
          (step1_upload_validacao t2 f2 c2 z2 d2 s2).1.session_id ↔
        (t1 = t2 ∧ f1 = f2))) ∧
    (∀ (sessions : Sessions) (sid : Str) (v : Session),
      lookupA (insertA sessions sid v) sid = some v) := by
  constructor
  · intro t1 f1 c1 z1 d1 s1 t2 f2 c2 z2 d2 s2 h1 h2
    rw [step1_sid t1 f1 c1 z1 d1 s1 h1, step1_sid t2 f2 c2 z2 d2 s2 h2]
    constructor
    · intro he
      exact mkSessionId_inj t1 t2 f1 f2 (Option.some.inj he)
    · rintro ⟨ht, hf⟩
      rw [ht, hf]
  · intro sessions sid v
    rw [lookupA_insertA, if_pos rfl]

/-- C5 counterexample: two different uploads in the same second `t = 0`
with the same filename `a.csv` receive the SAME session id, and the second
upload's session overwrites the first one's data rows. -/
theorem C5_counterexample :
    ((step1_upload_validacao 0 (S "a.csv") c1Content 10 none []).1.session_id =
      some c1Sid) ∧
    ((step1_upload_validacao 0 (S "a.csv") c5ContentB 10 none
        (step1_upload_validacao 0 (S "a.csv") c1Content 10 none []).2).1.session_id =
      some c1Sid) ∧
    ((lookupA (step1_upload_validacao 0 (S "a.csv") c1Content 10 none []).2 c1Sid).map
      Session.data_rows = some [[S "JOAO", S "1", S "E", S "S", S "T"]]) ∧
    ((lookupA (step1_upload_validacao 0 (S "a.csv") c5ContentB 10 none
        (step1_upload_validacao 0 (S "a.csv") c1Content 10 none []).2).2 c1Sid).map
      Session.data_rows = some [[S "MARIA", S "2", S "E", S "S", S "T"]]) := by
  decide

/-- C5 witness: two successful uploads one second apart with the same
filename — their session ids are equal iff `0 = 1 ∧ a.csv = a.csv`,
i.e. they differ. -/
theorem C5_witness :
    ((step1_upload_validacao 0 (S "a.csv") c1Content 10 none []).1.session_id =
        (step1_upload_validacao 1 (S "a.csv") c1Content 10 none []).1.session_id ↔
      ((0 : Nat) = 1 ∧ S "a.csv" = S "a.csv")) :=
  C5_theorem.1 0 (S "a.csv") c1Content 10 none [] 1 (S "a.csv") c1Content 10 none []
    (by decide) (by decide)

/-! ## The default password of step 5 (claim C10) -/

/-- C10 (amended): in the non-demo import loop, a row that reaches user
creation gets `u_senha = data.get("senha", "123456")` — the literal
default `"123456"` exactly when the `senha` key is ABSENT from the mapped
data; a mapped-but-empty `senha` is stored as the empty string, not as the
default. -/
theorem C10_theorem (db : RealDB) (res : ImportResults) (row : ValidRow)
    (hskip : row.skip_import = false)
    (eid sid tid : Nat)
    (he : lookupA db.instituicoes (getDA row.data fEscola []) = some eid)
    (hs : lookupA db.series (getDA row.data fSerie []) = some sid)
    (ht : lookupA db.turmas (getDA row.data fTurma [], sid, eid) = some tid)
    (ha : findAlunoByMatricula db (getDA row.data fRa []) = none) :
    ∃ u : UsuarioRow,
      (importOneRow (db, res) row).1.usuarios = db.usuarios ++ [u] ∧
      u.u_senha = getDA row.data fSenha (S "123456") ∧
      (lookupA row.data fSenha = none → u.u_senha = S "123456") := by
  unfold importOneRow
  simp only [hskip, Bool.false_eq_true, if_false, he, hs, ht, ha]
  by_cases hm : getDA row.data fEmail [] ≠ []
  · rw [if_pos hm]
    cases hE : lookupA db.emails (getDA row.data fEmail []) with
    | some k =>
        exact ⟨_, rfl, rfl, fun hn => by simp [getDA, hn]⟩
    | none =>
        exact ⟨_, rfl, rfl, fun hn => by simp [getDA, hn]⟩
  · rw [if_neg hm]
    exact ⟨_, rfl, rfl, fun hn => by simp [getDA, hn]⟩

/-- C10 counterexample: a mapped but empty `SENHA` column survives into
the valid row's data as `senha = ""`, and the non-demo import then creates
the user with the EMPTY password, not with the default `"123456"` — the
default applies only when the key is absent. -/
theorem C10_counterexample :
    (((lookupA c10S3 c1Sid).bind Session.validation_results).map
      (fun v => v.valid_rows.map (fun e => lookupA e.data fSenha)) = some [some []]) ∧
    ((step5_importar_final c10S3 c1Sid none (some c10Db)).2.2.map
      (fun d => d.usuarios.map UsuarioRow.u_senha) = some [[]]) ∧
    (S "123456" ≠ ([] : Str)) := by
  decide

/-- C10 witness: the amended theorem applied to a concrete store and a
valid row without a `senha` key — the created user's password is the
literal default `"123456"`. -/
theorem C10_witness :
    ∃ u : UsuarioRow,
      (importOneRow (c10Db, ⟨0, 0, [], []⟩) c10Row).1.usuarios = c10Db.usuarios ++ [u] ∧
      u.u_senha = getDA c10Row.data fSenha (S "123456") ∧
      (lookupA c10Row.data fSenha = none → u.u_senha = S "123456") :=
  C10_theorem c10Db ⟨0, 0, [], []⟩ c10Row (by decide) 1 2 3
    (by decide) (by decide) (by decide) (by decide)
